import Mathlib

/-!
Verification of the interval-algebra core of `get_availability.py`
(krakov/calendar-availability).

Timestamps are modelled as integers counting seconds (Python `datetime`
arithmetic on timezone-aware datetimes is arithmetic on absolute instants;
`datetime.timedelta(minutes=k)` is `k * 60` seconds, Python's `%` on
timedeltas takes the sign of the divisor, matching `Int.emod`, and
`// 60` on a number of seconds is floor division, matching `Int.fdiv`).
A `TimeRange` `[start, end)` is a pair of integers.
-/

namespace CalendarAvailability

/-- A half-open interval `[start, end)` of absolute timestamps in seconds,
modelling the two-element lists `[start, end]` the Python code passes around. -/
abbrev TimeRange := ℤ × ℤ

/-- The configuration fields consumed by the functions under verification
(`meeting_length_minutes`, `meeting_spare_before`, `meeting_spare_after`
from `_CONFIG_DEFAULT_KEYS` in `src/src/get_availability.py`). -/
structure Config where
  meeting_length_minutes : ℤ
  meeting_spare_before : ℤ
  meeting_spare_after : ℤ
  deriving Repr, DecidableEq

/-- `ceil_dt(dt, base, minutes)` from `src/src/get_availability.py` lines
104-105: `dt + (base - dt) % datetime.timedelta(minutes=minutes)`.
In seconds the divisor is `minutes * 60`; Python's `%` on timedeltas with a
positive divisor returns a value in `[0, divisor)`, exactly `Int.emod`. -/
def ceil_dt (dt base minutes : ℤ) : ℤ :=
  dt + (base - dt) % (minutes * 60)

/-- The emission step at the end of each outer loop iteration of
`combine_ranges` (lines 159-161): compute
`length = (end - start).total_seconds() // 60` and append `[start, end]`
to the output when `length >= config["meeting_length_minutes"]`. -/
def emit (m : ℤ) (r : TimeRange) (rest : List TimeRange) : List TimeRange :=
  if m ≤ (r.2 - r.1).fdiv 60 then r :: rest else rest

/-- `combine_ranges(config, free, busy)` from `src/src/get_availability.py`
lines 108-163, the two-pointer sweep.  Advancing `free_idx` is dropping the
head of `free`; advancing `busy_idx` is dropping the head of `busy`; the
in-place mutation `free[free_idx][0] = new_free_start` is replacing the head
of `free`.  Branches, in source order:
* inner `while` (line 114): the busy head ends at or before the free head's
  start — skip the busy head;
* line 116 (`busy_idx == len(busy) or busy[0][0] >= free[0][1]`): take the
  whole free head, advance `free_idx`;
* line 121 (`busy[0][0] <= free[0][0]`) with line 122 (`busy[0][1] >=
  free[0][1]`): busy covers the whole free head, drop it, no emission;
* line 126 `else`: busy ends inside the free head — round its end up to the
  grid from the free head's start, either rewrite the free head's start or
  drop the head, consume the busy head, no emission;
* line 140 (`busy[0][1] >= free[0][1]`): emit `[free.start, busy.start)`,
  advance `free_idx`, keep the busy head;
* line 145 `else`: emit `[free.start, busy.start)`, then rewrite the free
  head's start (or drop it) as above and consume the busy head. -/
def combine_ranges (config : Config) : List TimeRange → List TimeRange → List TimeRange
  | [], _ => []
  | (fs, fe) :: free, [] =>
      emit config.meeting_length_minutes (fs, fe) (combine_ranges config free [])
  | (fs, fe) :: free, (bs, be) :: busy =>
      if be ≤ fs then
        combine_ranges config ((fs, fe) :: free) busy
      else if fe ≤ bs then
        emit config.meeting_length_minutes (fs, fe)
          (combine_ranges config free ((bs, be) :: busy))
      else if bs ≤ fs then
        if fe ≤ be then
          combine_ranges config free ((bs, be) :: busy)
        else if ceil_dt be fs config.meeting_length_minutes < fe then
          combine_ranges config ((ceil_dt be fs config.meeting_length_minutes, fe) :: free) busy
        else
          combine_ranges config free busy
      else if fe ≤ be then
        emit config.meeting_length_minutes (fs, bs)
          (combine_ranges config free ((bs, be) :: busy))
      else if ceil_dt be fs config.meeting_length_minutes < fe then
        emit config.meeting_length_minutes (fs, bs)
          (combine_ranges config ((ceil_dt be fs config.meeting_length_minutes, fe) :: free) busy)
      else
        emit config.meeting_length_minutes (fs, bs)
          (combine_ranges config free busy)
  termination_by free busy => free.length + busy.length
  decreasing_by all_goals simp +arith [List.length]

/-- Fuel-indexed version of `combine_ranges`: one unit of fuel is consumed by
every step of the sweep (each advancement of `free_idx` or `busy_idx`,
including the inner `while` skips and the in-place head rewrites, all of which
strictly decrease `(len(free) - free_idx) + (len(busy) - busy_idx)`).
Returns `none` when the fuel runs out before the sweep finishes. -/
def combineFuel (config : Config) : ℕ → List TimeRange → List TimeRange →
    Option (List TimeRange)
  | _, [], _ => some []
  | 0, _ :: _, _ => none
  | fuel + 1, (fs, fe) :: free, [] =>
      (combineFuel config fuel free []).map
        (emit config.meeting_length_minutes (fs, fe))
  | fuel + 1, (fs, fe) :: free, (bs, be) :: busy =>
      if be ≤ fs then
        combineFuel config fuel ((fs, fe) :: free) busy
      else if fe ≤ bs then
        (combineFuel config fuel free ((bs, be) :: busy)).map
          (emit config.meeting_length_minutes (fs, fe))
      else if bs ≤ fs then
        if fe ≤ be then
          combineFuel config fuel free ((bs, be) :: busy)
        else if ceil_dt be fs config.meeting_length_minutes < fe then
          combineFuel config fuel ((ceil_dt be fs config.meeting_length_minutes, fe) :: free) busy
        else
          combineFuel config fuel free busy
      else if fe ≤ be then
        (combineFuel config fuel free ((bs, be) :: busy)).map
          (emit config.meeting_length_minutes (fs, bs))
      else if ceil_dt be fs config.meeting_length_minutes < fe then
        (combineFuel config fuel ((ceil_dt be fs config.meeting_length_minutes, fe) :: free) busy).map
          (emit config.meeting_length_minutes (fs, bs))
      else
        (combineFuel config fuel free busy).map
          (emit config.meeting_length_minutes (fs, bs))

/-- `get_busy_ranges` (lines 77-101) restricted to its pure part: the service
reply `freebusy["calendars"][calendar_id]["busy"]` is the input list `raw`,
and each reported interval is padded —
`start -= timedelta(minutes=config["meeting_spare_before"])`,
`end += timedelta(minutes=config["meeting_spare_after"])` — and appended to
the result in the order the service reported it. -/
def get_busy_ranges (config : Config) : List TimeRange → List TimeRange
  | [] => []
  | r :: raw =>
      (r.1 - config.meeting_spare_before * 60, r.2 + config.meeting_spare_after * 60) ::
        get_busy_ranges config raw

/-- The floor-clipping loop body of `prep_work_ranges` (lines 68-73) mapped
over the constructed raw work windows: a window ending before the floor
`min_time` is skipped; a window starting before the floor has its start
raised to the floor; then `assert start <= end` (an `AssertionError` is
modelled as `none`) and the window is appended. -/
def prep_work_ranges (min_time : ℤ) : List TimeRange → Option (List TimeRange)
  | [] => some []
  | (s, e) :: ws =>
      if e < min_time then prep_work_ranges min_time ws
      else
        let s' := if s < min_time then min_time else s
        if s' ≤ e then
          (prep_work_ranges min_time ws).map (fun rest => (s', e) :: rest)
        else none

/-- Python's `t.weekday()` (Monday = 0) of the timestamp `t` (seconds) after
conversion to the display timezone, the conversion modelled as adding the
zone's fixed UTC offset `off` in seconds.  Day 0 of the epoch
(1970-01-01) was a Thursday, weekday 3. -/
def weekday (off t : ℤ) : ℤ :=
  ((t + off).fdiv 86400 + 3) % 7

/-- The grouping loop of `print_ranges` (lines 189-199) once a first interval
has opened a cluster: `d` is the weekday of the current cluster's intervals
and `cur` the current cluster; an interval whose converted start has weekday
`d` is appended to the current cluster (`day_ranges[-1].append(...)`),
otherwise the cluster is closed and a new one opened. -/
def groupGo (off d : ℤ) (cur : List TimeRange) : List TimeRange → List (List TimeRange)
  | [] => [cur]
  | r :: rs =>
      if weekday off r.1 = d then groupGo off d (cur ++ [r]) rs
      else cur :: groupGo off (weekday off r.1) [r] rs

/-- The `day_ranges` grouping of `print_ranges` (lines 189-199): `day` starts
as `None`, so the first interval always opens a new cluster. -/
def group_ranges (off : ℤ) : List TimeRange → List (List TimeRange)
  | [] => []
  | r :: rs => groupGo off (weekday off r.1) [r] rs

/-- `print_ranges` (lines 170-209) restricted to its grouping behaviour: it
builds `day_ranges` and then unconditionally evaluates
`day_ranges[0][0][0]` (line 200) to seed the week-boundary detection, which
raises `IndexError` when `day_ranges` is empty — modelled as `none`.
The rendered text is a presentation concern; the value returned here is the
cluster structure the rendering iterates over. -/
def print_ranges (off : ℤ) (ranges : List TimeRange) : Option (List (List TimeRange)) :=
  match group_ranges off ranges with
  | [] => none
  | c :: cs => some (c :: cs)

/-- Busy/free interval lists as the sweep's preconditions require them:
sorted by start and mutually non-overlapping, which for half-open intervals
is `a.end ≤ b.start` for every pair in list order. -/
def SortedDisjoint (l : List TimeRange) : Prop :=
  l.Pairwise (fun a b => a.2 ≤ b.1)

/-- Every interval of the list is non-degenerate: `start ≤ end`. -/
def ValidRanges (l : List TimeRange) : Prop :=
  ∀ r ∈ l, r.1 ≤ r.2

instance (l : List TimeRange) : Decidable (SortedDisjoint l) :=
  inferInstanceAs (Decidable (l.Pairwise _))

instance (l : List TimeRange) : Decidable (ValidRanges l) :=
  inferInstanceAs (Decidable (∀ r ∈ l, _))

/-- No interval of `out` intersects an interval of `busy`:
half-open intervals are disjoint when one ends before the other starts. -/
def DisjointFrom (out busy : List TimeRange) : Prop :=
  ∀ r ∈ out, ∀ b ∈ busy, r.2 ≤ b.1 ∨ b.2 ≤ r.1

instance (out busy : List TimeRange) : Decidable (DisjointFrom out busy) :=
  inferInstanceAs (Decidable (∀ r ∈ out, ∀ b ∈ busy, _))

/-! ### Arithmetic facts about `ceil_dt` -/

lemma ceil_dt_ge {m : ℤ} (hm : 1 ≤ m) (dt base : ℤ) : dt ≤ ceil_dt dt base m := by
  have h : 0 ≤ (base - dt) % (m * 60) := Int.emod_nonneg _ (by positivity)
  unfold ceil_dt
  omega

lemma ceil_dt_lt_add {m : ℤ} (hm : 1 ≤ m) (dt base : ℤ) :
    ceil_dt dt base m < dt + m * 60 := by
  have h : (base - dt) % (m * 60) < m * 60 := Int.emod_lt_of_pos _ (by positivity)
  unfold ceil_dt
  omega

lemma ceil_dt_emod (dt base m : ℤ) :
    ceil_dt dt base m % (m * 60) = base % (m * 60) := by
  unfold ceil_dt
  conv_rhs => rw [show base = dt + (base - dt) by ring]
  rw [Int.add_emod, Int.emod_emod_of_dvd _ dvd_rfl, ← Int.add_emod]

lemma ceil_dt_min {m : ℤ} (hm : 1 ≤ m) (dt base x : ℤ) (hx : dt ≤ x)
    (hmod : x % (m * 60) = base % (m * 60)) : ceil_dt dt base m ≤ x := by
  by_contra hlt
  push_neg at hlt
  have hdvd : m * 60 ∣ ceil_dt dt base m - x := by
    have h1 := ceil_dt_emod dt base m
    have h2 : ceil_dt dt base m % (m * 60) = x % (m * 60) := by rw [h1, hmod]
    exact Int.dvd_of_emod_eq_zero (Int.emod_emod_of_dvd _ dvd_rfl ▸
      (Int.emod_eq_emod_iff_emod_sub_eq_zero.mp h2))
  have hlt2 : ceil_dt dt base m - x < m * 60 := by
    have := ceil_dt_lt_add hm dt base
    omega
  have := Int.le_of_dvd (by omega) hdvd
  omega

/-! ### Equation lemmas for `combine_ranges`, one per branch of the sweep -/

section Equations

variable {config : Config} {fs fe bs be : ℤ} {free busy : List TimeRange}

lemma combine_nil_free : combine_ranges config [] busy = [] := by
  rw [combine_ranges]

lemma combine_nil_busy :
    combine_ranges config ((fs, fe) :: free) [] =
      emit config.meeting_length_minutes (fs, fe) (combine_ranges config free []) := by
  rw [combine_ranges]

lemma combine_skip (h : be ≤ fs) :
    combine_ranges config ((fs, fe) :: free) ((bs, be) :: busy) =
      combine_ranges config ((fs, fe) :: free) busy := by
  rw [combine_ranges]
  simp [h]

lemma combine_whole (h1 : ¬be ≤ fs) (h2 : fe ≤ bs) :
    combine_ranges config ((fs, fe) :: free) ((bs, be) :: busy) =
      emit config.meeting_length_minutes (fs, fe)
        (combine_ranges config free ((bs, be) :: busy)) := by
  rw [combine_ranges]
  simp [h1, h2]

lemma combine_cover (h1 : ¬be ≤ fs) (h2 : ¬fe ≤ bs) (h3 : bs ≤ fs) (h4 : fe ≤ be) :
    combine_ranges config ((fs, fe) :: free) ((bs, be) :: busy) =
      combine_ranges config free ((bs, be) :: busy) := by
  rw [combine_ranges]
  simp [h1, h2, h3, h4]

lemma combine_clip_mut (h1 : ¬be ≤ fs) (h2 : ¬fe ≤ bs) (h3 : bs ≤ fs) (h4 : ¬fe ≤ be)
    (h5 : ceil_dt be fs config.meeting_length_minutes < fe) :
    combine_ranges config ((fs, fe) :: free) ((bs, be) :: busy) =
      combine_ranges config
        ((ceil_dt be fs config.meeting_length_minutes, fe) :: free) busy := by
  rw [combine_ranges]
  simp [h1, h2, h3, h4, h5]

lemma combine_clip_drop (h1 : ¬be ≤ fs) (h2 : ¬fe ≤ bs) (h3 : bs ≤ fs) (h4 : ¬fe ≤ be)
    (h5 : ¬ceil_dt be fs config.meeting_length_minutes < fe) :
    combine_ranges config ((fs, fe) :: free) ((bs, be) :: busy) =
      combine_ranges config free busy := by
  rw [combine_ranges]
  simp [h1, h2, h3, h4, h5]

lemma combine_tail (h1 : ¬be ≤ fs) (h2 : ¬fe ≤ bs) (h3 : ¬bs ≤ fs) (h4 : fe ≤ be) :
    combine_ranges config ((fs, fe) :: free) ((bs, be) :: busy) =
      emit config.meeting_length_minutes (fs, bs)
        (combine_ranges config free ((bs, be) :: busy)) := by
  rw [combine_ranges]
  simp [h1, h2, h3, h4]

lemma combine_mid_mut (h1 : ¬be ≤ fs) (h2 : ¬fe ≤ bs) (h3 : ¬bs ≤ fs) (h4 : ¬fe ≤ be)
    (h5 : ceil_dt be fs config.meeting_length_minutes < fe) :
    combine_ranges config ((fs, fe) :: free) ((bs, be) :: busy) =
      emit config.meeting_length_minutes (fs, bs)
        (combine_ranges config
          ((ceil_dt be fs config.meeting_length_minutes, fe) :: free) busy) := by
  rw [combine_ranges]
  simp [h1, h2, h3, h4, h5]

lemma combine_mid_drop (h1 : ¬be ≤ fs) (h2 : ¬fe ≤ bs) (h3 : ¬bs ≤ fs) (h4 : ¬fe ≤ be)
    (h5 : ¬ceil_dt be fs config.meeting_length_minutes < fe) :
    combine_ranges config ((fs, fe) :: free) ((bs, be) :: busy) =
      emit config.meeting_length_minutes (fs, bs)
        (combine_ranges config free busy) := by
  rw [combine_ranges]
  simp [h1, h2, h3, h4, h5]

end Equations

lemma mem_emit {m : ℤ} {r x : TimeRange} {rest : List TimeRange} :
    x ∈ emit m r rest ↔ (x = r ∧ m ≤ (r.2 - r.1).fdiv 60) ∨ x ∈ rest := by
  unfold emit
  split <;> rename_i h <;> simp [h]

lemma emit_subset {m : ℤ} {r : TimeRange} {rest : List TimeRange} :
    rest ⊆ emit m r rest := by
  intro x hx
  exact mem_emit.mpr (Or.inr hx)

/-! ### Invariants of the sweep -/

/-- Every interval the sweep outputs passed the minimum-length check of
lines 159-161, whatever the inputs look like. -/
lemma combine_min_length (config : Config) : ∀ free busy,
    ∀ r ∈ combine_ranges config free busy,
      config.meeting_length_minutes ≤ (r.2 - r.1).fdiv 60 := by
  intro free busy
  induction free, busy using combine_ranges.induct config with
  | case1 busy => simp [combine_nil_free]
  | case2 fs fe free ih =>
      rw [combine_nil_busy]
      intro r hr
      rcases mem_emit.mp hr with ⟨hEq, hLen⟩ | hr'
      · subst hEq; exact hLen
      · exact ih r hr'
  | case3 fs fe free bs be busy h ih =>
      rw [combine_skip h]; exact ih
  | case4 fs fe free bs be busy h1 h2 ih =>
      rw [combine_whole h1 h2]
      intro r hr
      rcases mem_emit.mp hr with ⟨hEq, hLen⟩ | hr'
      · subst hEq; exact hLen
      · exact ih r hr'
  | case5 fs fe free bs be busy h1 h2 h3 h4 ih =>
      rw [combine_cover h1 h2 h3 h4]; exact ih
  | case6 fs fe free bs be busy h1 h2 h3 h4 h5 ih =>
      rw [combine_clip_mut h1 h2 h3 h4 h5]; exact ih
  | case7 fs fe free bs be busy h1 h2 h3 h4 h5 ih =>
      rw [combine_clip_drop h1 h2 h3 h4 h5]; exact ih
  | case8 fs fe free bs be busy h1 h2 h3 h4 ih =>
      rw [combine_tail h1 h2 h3 h4]
      intro r hr
      rcases mem_emit.mp hr with ⟨hEq, hLen⟩ | hr'
      · subst hEq; exact hLen
      · exact ih r hr'
  | case9 fs fe free bs be busy h1 h2 h3 h4 h5 ih =>
      rw [combine_mid_mut h1 h2 h3 h4 h5]
      intro r hr
      rcases mem_emit.mp hr with ⟨hEq, hLen⟩ | hr'
      · subst hEq; exact hLen
      · exact ih r hr'
  | case10 fs fe free bs be busy h1 h2 h3 h4 h5 ih =>
      rw [combine_mid_drop h1 h2 h3 h4 h5]
      intro r hr
      rcases mem_emit.mp hr with ⟨hEq, hLen⟩ | hr'
      · subst hEq; exact hLen
      · exact ih r hr'

/-- The sweep never emits an interval starting before a common lower bound of
the free starts: free starts only ever move forward (the head rewrite replaces
`fs` by `ceil_dt be fs m ≥ be > fs`). -/
lemma combine_start_mono (config : Config) (hm : 1 ≤ config.meeting_length_minutes)
    (t : ℤ) : ∀ free busy, (∀ f ∈ free, t ≤ f.1) →
      ∀ r ∈ combine_ranges config free busy, t ≤ r.1 := by
  intro free busy
  induction free, busy using combine_ranges.induct config with
  | case1 busy => simp [combine_nil_free]
  | case2 fs fe free ih =>
      intro hf r hr
      rw [combine_nil_busy] at hr
      rcases mem_emit.mp hr with ⟨hEq, _⟩ | hr'
      · subst hEq; exact hf (fs, fe) (List.mem_cons_self _ _)
      · exact ih (fun f hf' => hf f (List.mem_cons_of_mem _ hf')) r hr'
  | case3 fs fe free bs be busy h ih =>
      intro hf; rw [combine_skip h]; exact ih hf
  | case4 fs fe free bs be busy h1 h2 ih =>
      intro hf r hr
      rw [combine_whole h1 h2] at hr
      rcases mem_emit.mp hr with ⟨hEq, _⟩ | hr'
      · subst hEq; exact hf (fs, fe) (List.mem_cons_self _ _)
      · exact ih (fun f hf' => hf f (List.mem_cons_of_mem _ hf')) r hr'
  | case5 fs fe free bs be busy h1 h2 h3 h4 ih =>
      intro hf; rw [combine_cover h1 h2 h3 h4]
      exact ih (fun f hf' => hf f (List.mem_cons_of_mem _ hf'))
  | case6 fs fe free bs be busy h1 h2 h3 h4 h5 ih =>
      intro hf; rw [combine_clip_mut h1 h2 h3 h4 h5]
      refine ih ?_
      intro f hf'
      rcases List.mem_cons.mp hf' with hEq | hf''
      · subst hEq
        have h6 := ceil_dt_ge hm be fs
        have h7 := hf (fs, fe) (List.mem_cons_self _ _)
        show t ≤ ceil_dt be fs config.meeting_length_minutes
        simp only at h7
        omega
      · exact hf f (List.mem_cons_of_mem _ hf'')
  | case7 fs fe free bs be busy h1 h2 h3 h4 h5 ih =>
      intro hf; rw [combine_clip_drop h1 h2 h3 h4 h5]
      exact ih (fun f hf' => hf f (List.mem_cons_of_mem _ hf'))
  | case8 fs fe free bs be busy h1 h2 h3 h4 ih =>
      intro hf r hr
      rw [combine_tail h1 h2 h3 h4] at hr
      rcases mem_emit.mp hr with ⟨hEq, _⟩ | hr'
      · subst hEq; exact hf (fs, fe) (List.mem_cons_self _ _)
      · exact ih (fun f hf' => hf f (List.mem_cons_of_mem _ hf')) r hr'
  | case9 fs fe free bs be busy h1 h2 h3 h4 h5 ih =>
      intro hf r hr
      rw [combine_mid_mut h1 h2 h3 h4 h5] at hr
      rcases mem_emit.mp hr with ⟨hEq, _⟩ | hr'
      · subst hEq; exact hf (fs, fe) (List.mem_cons_self _ _)
      · refine ih ?_ r hr'
        intro f hf'
        rcases List.mem_cons.mp hf' with hEq | hf''
        · subst hEq
          have h6 := ceil_dt_ge hm be fs
          have h7 := hf (fs, fe) (List.mem_cons_self _ _)
          show t ≤ ceil_dt be fs config.meeting_length_minutes
          simp only at h7
          omega
        · exact hf f (List.mem_cons_of_mem _ hf'')
  | case10 fs fe free bs be busy h1 h2 h3 h4 h5 ih =>
      intro hf r hr
      rw [combine_mid_drop h1 h2 h3 h4 h5] at hr
      rcases mem_emit.mp hr with ⟨hEq, _⟩ | hr'
      · subst hEq; exact hf (fs, fe) (List.mem_cons_self _ _)
      · exact ih (fun f hf' => hf f (List.mem_cons_of_mem _ hf')) r hr'

/-- Sweeping a list all of whose intervals already satisfy the minimum length
against an empty busy list reproduces the list. -/
lemma combine_nil_busy_id (config : Config) : ∀ l,
    (∀ r ∈ l, config.meeting_length_minutes ≤ (r.2 - r.1).fdiv 60) →
      combine_ranges config l [] = l := by
  intro l
  induction l with
  | nil => intro _; exact combine_nil_free
  | cons r l ih =>
      intro h
      obtain ⟨s, e⟩ := r
      rw [combine_nil_busy, ih (fun x hx => h x (List.mem_cons_of_mem _ hx))]
      unfold emit
      rw [if_pos (h (s, e) (List.mem_cons_self _ _))]

lemma sortedDisjoint_nil : SortedDisjoint [] := List.Pairwise.nil

lemma validRanges_nil : ValidRanges [] := fun r hr => absurd hr (List.not_mem_nil r)

lemma sortedDisjoint_cons_head {a : TimeRange} {l : List TimeRange}
    (h : SortedDisjoint (a :: l)) : ∀ x ∈ l, a.2 ≤ x.1 :=
  (List.pairwise_cons.mp h).1

lemma sortedDisjoint_cons_tail {a : TimeRange} {l : List TimeRange}
    (h : SortedDisjoint (a :: l)) : SortedDisjoint l :=
  (List.pairwise_cons.mp h).2

lemma validRanges_cons_head {a : TimeRange} {l : List TimeRange}
    (h : ValidRanges (a :: l)) : a.1 ≤ a.2 :=
  h a (List.mem_cons_self _ _)

lemma validRanges_cons_tail {a : TimeRange} {l : List TimeRange}
    (h : ValidRanges (a :: l)) : ValidRanges l :=
  fun r hr => h r (List.mem_cons_of_mem _ hr)

lemma validRanges_cons {a : TimeRange} {l : List TimeRange}
    (h1 : a.1 ≤ a.2) (h2 : ValidRanges l) : ValidRanges (a :: l) := by
  intro r hr
  rcases List.mem_cons.mp hr with hEq | hr'
  · subst hEq; exact h1
  · exact h2 r hr'

lemma disjointFrom_nil {out : List TimeRange} : DisjointFrom out [] :=
  fun _ _ b hb => absurd hb (List.not_mem_nil b)

lemma disjointFrom_cons {out busy : List TimeRange} {b : TimeRange}
    (h1 : ∀ r ∈ out, r.2 ≤ b.1 ∨ b.2 ≤ r.1) (h2 : DisjointFrom out busy) :
    DisjointFrom out (b :: busy) := by
  intro r hr b' hb'
  rcases List.mem_cons.mp hb' with hEq | hb''
  · subst hEq; exact h1 r hr
  · exact h2 r hr b' hb''

lemma sortedDisjoint_emit {m : ℤ} {r : TimeRange} {rest : List TimeRange}
    (h1 : ∀ x ∈ rest, r.2 ≤ x.1) (h2 : SortedDisjoint rest) :
    SortedDisjoint (emit m r rest) := by
  unfold emit
  split
  · exact List.pairwise_cons.mpr ⟨h1, h2⟩
  · exact h2

lemma disjointFrom_emit {m : ℤ} {r : TimeRange} {rest busy : List TimeRange}
    (h1 : ∀ b ∈ busy, r.2 ≤ b.1 ∨ b.2 ≤ r.1) (h2 : DisjointFrom rest busy) :
    DisjointFrom (emit m r rest) busy := by
  intro x hx
  rcases mem_emit.mp hx with ⟨hEq, _⟩ | hx'
  · subst hEq; exact h1
  · exact h2 x hx'

/-- If the first free interval is non-degenerate and the free list is sorted
and non-overlapping, its start bounds every free start from below. -/
lemma head_start_lb {fs fe : ℤ} {free : List TimeRange}
    (hvf : ValidRanges ((fs, fe) :: free)) (hcf : SortedDisjoint ((fs, fe) :: free)) :
    ∀ f ∈ (fs, fe) :: free, fs ≤ f.1 := by
  intro f hf
  rcases List.mem_cons.mp hf with hEq | hf'
  · subst hEq; exact le_refl _
  · exact le_trans (validRanges_cons_head hvf) (sortedDisjoint_cons_head hcf f hf')

/-- Main invariant of the sweep: on sorted, mutually non-overlapping,
non-degenerate free and busy lists the output is sorted and mutually
non-overlapping and no output interval intersects any busy interval. -/
lemma combine_main (config : Config) (hm : 1 ≤ config.meeting_length_minutes) :
    ∀ free busy, SortedDisjoint free → ValidRanges free →
      SortedDisjoint busy → ValidRanges busy →
      SortedDisjoint (combine_ranges config free busy) ∧
      DisjointFrom (combine_ranges config free busy) busy := by
  intro free busy
  induction free, busy using combine_ranges.induct config with
  | case1 busy =>
      intro _ _ _ _
      rw [combine_nil_free]
      exact ⟨sortedDisjoint_nil, fun r hr => absurd hr (List.not_mem_nil r)⟩
  | case2 fs fe free ih =>
      intro hcf hvf _ _
      obtain ⟨ihc, _⟩ := ih (sortedDisjoint_cons_tail hcf) (validRanges_cons_tail hvf)
        sortedDisjoint_nil validRanges_nil
      rw [combine_nil_busy]
      refine ⟨sortedDisjoint_emit ?_ ihc, disjointFrom_nil⟩
      exact combine_start_mono config hm fe free [] (sortedDisjoint_cons_head hcf)
  | case3 fs fe free bs be busy h ih =>
      intro hcf hvf hcb hvb
      rw [combine_skip h]
      obtain ⟨ihc, ihd⟩ := ih hcf hvf (sortedDisjoint_cons_tail hcb)
        (validRanges_cons_tail hvb)
      refine ⟨ihc, disjointFrom_cons ?_ ihd⟩
      intro r hr
      right
      show be ≤ r.1
      have h6 := combine_start_mono config hm fs ((fs, fe) :: free) busy
        (head_start_lb hvf hcf) r hr
      omega
  | case4 fs fe free bs be busy h1 h2 ih =>
      intro hcf hvf hcb hvb
      rw [combine_whole h1 h2]
      obtain ⟨ihc, ihd⟩ := ih (sortedDisjoint_cons_tail hcf) (validRanges_cons_tail hvf)
        hcb hvb
      refine ⟨sortedDisjoint_emit ?_ ihc, disjointFrom_emit ?_ ihd⟩
      · exact combine_start_mono config hm fe free ((bs, be) :: busy)
          (sortedDisjoint_cons_head hcf)
      · intro b hb
        left
        show fe ≤ b.1
        rcases List.mem_cons.mp hb with hEq | hb'
        · subst hEq; exact h2
        · have h6 := validRanges_cons_head hvb
          have h7 := sortedDisjoint_cons_head hcb b hb'
          simp only at h6 h7
          omega
  | case5 fs fe free bs be busy h1 h2 h3 h4 ih =>
      intro hcf hvf hcb hvb
      rw [combine_cover h1 h2 h3 h4]
      exact ih (sortedDisjoint_cons_tail hcf) (validRanges_cons_tail hvf) hcb hvb
  | case6 fs fe free bs be busy h1 h2 h3 h4 h5 ih =>
      intro hcf hvf hcb hvb
      rw [combine_clip_mut h1 h2 h3 h4 h5]
      have hcge := ceil_dt_ge hm be fs
      have hchain' : SortedDisjoint ((ceil_dt be fs config.meeting_length_minutes, fe) :: free) :=
        List.pairwise_cons.mpr ⟨fun x hx => sortedDisjoint_cons_head hcf x hx,
          sortedDisjoint_cons_tail hcf⟩
      have hvalid' : ValidRanges ((ceil_dt be fs config.meeting_length_minutes, fe) :: free) :=
        validRanges_cons (le_of_lt h5) (validRanges_cons_tail hvf)
      obtain ⟨ihc, ihd⟩ := ih hchain' hvalid' (sortedDisjoint_cons_tail hcb)
        (validRanges_cons_tail hvb)
      refine ⟨ihc, disjointFrom_cons ?_ ihd⟩
      intro r hr
      right
      show be ≤ r.1
      have hlb : ∀ f ∈ (ceil_dt be fs config.meeting_length_minutes, fe) :: free,
          ceil_dt be fs config.meeting_length_minutes ≤ f.1 := by
        intro f hf
        rcases List.mem_cons.mp hf with hEq | hf'
        · subst hEq; exact le_refl _
        · exact le_trans (le_of_lt h5) (sortedDisjoint_cons_head hcf f hf')
      have h6 := combine_start_mono config hm _ _ busy hlb r hr
      omega
  | case7 fs fe free bs be busy h1 h2 h3 h4 h5 ih =>
      intro hcf hvf hcb hvb
      rw [combine_clip_drop h1 h2 h3 h4 h5]
      obtain ⟨ihc, ihd⟩ := ih (sortedDisjoint_cons_tail hcf) (validRanges_cons_tail hvf)
        (sortedDisjoint_cons_tail hcb) (validRanges_cons_tail hvb)
      refine ⟨ihc, disjointFrom_cons ?_ ihd⟩
      intro r hr
      right
      show be ≤ r.1
      have h6 := combine_start_mono config hm fe free busy
        (sortedDisjoint_cons_head hcf) r hr
      omega
  | case8 fs fe free bs be busy h1 h2 h3 h4 ih =>
      intro hcf hvf hcb hvb
      rw [combine_tail h1 h2 h3 h4]
      obtain ⟨ihc, ihd⟩ := ih (sortedDisjoint_cons_tail hcf) (validRanges_cons_tail hvf)
        hcb hvb
      refine ⟨sortedDisjoint_emit ?_ ihc, disjointFrom_emit ?_ ihd⟩
      · intro x hx
        show bs ≤ x.1
        have h6 := combine_start_mono config hm fe free ((bs, be) :: busy)
          (sortedDisjoint_cons_head hcf) x hx
        omega
      · intro b hb
        left
        show bs ≤ b.1
        rcases List.mem_cons.mp hb with hEq | hb'
        · subst hEq; exact le_refl _
        · have h6 := validRanges_cons_head hvb
          have h7 := sortedDisjoint_cons_head hcb b hb'
          simp only at h6 h7
          omega
  | case9 fs fe free bs be busy h1 h2 h3 h4 h5 ih =>
      intro hcf hvf hcb hvb
      have hcge := ceil_dt_ge hm be fs
      rw [combine_mid_mut h1 h2 h3 h4 h5]
      have hchain' : SortedDisjoint ((ceil_dt be fs config.meeting_length_minutes, fe) :: free) :=
        List.pairwise_cons.mpr ⟨fun x hx => sortedDisjoint_cons_head hcf x hx,
          sortedDisjoint_cons_tail hcf⟩
      have hvalid' : ValidRanges ((ceil_dt be fs config.meeting_length_minutes, fe) :: free) :=
        validRanges_cons (le_of_lt h5) (validRanges_cons_tail hvf)
      obtain ⟨ihc, ihd⟩ := ih hchain' hvalid' (sortedDisjoint_cons_tail hcb)
        (validRanges_cons_tail hvb)
      have hlb : ∀ f ∈ (ceil_dt be fs config.meeting_length_minutes, fe) :: free,
          ceil_dt be fs config.meeting_length_minutes ≤ f.1 := by
        intro f hf
        rcases List.mem_cons.mp hf with hEq | hf'
        · subst hEq; exact le_refl _
        · exact le_trans (le_of_lt h5) (sortedDisjoint_cons_head hcf f hf')
      have hrest : ∀ x ∈ combine_ranges config
          ((ceil_dt be fs config.meeting_length_minutes, fe) :: free) busy,
          ceil_dt be fs config.meeting_length_minutes ≤ x.1 :=
        combine_start_mono config hm _ _ busy hlb
      have hbsbe : bs ≤ be := by
        have h6 := validRanges_cons_head hvb
        simpa using h6
      refine ⟨sortedDisjoint_emit ?_ ihc,
        disjointFrom_emit ?_ (disjointFrom_cons ?_ ihd)⟩
      · intro x hx
        show bs ≤ x.1
        have h6 := hrest x hx
        omega
      · intro b hb
        left
        show bs ≤ b.1
        rcases List.mem_cons.mp hb with hEq | hb'
        · subst hEq; exact le_refl _
        · have h7 := sortedDisjoint_cons_head hcb b hb'
          simp only at h7
          omega
      · intro x hx
        right
        show be ≤ x.1
        have h6 := hrest x hx
        omega
  | case10 fs fe free bs be busy h1 h2 h3 h4 h5 ih =>
      intro hcf hvf hcb hvb
      rw [combine_mid_drop h1 h2 h3 h4 h5]
      obtain ⟨ihc, ihd⟩ := ih (sortedDisjoint_cons_tail hcf) (validRanges_cons_tail hvf)
        (sortedDisjoint_cons_tail hcb) (validRanges_cons_tail hvb)
      have hrest : ∀ x ∈ combine_ranges config free busy, fe ≤ x.1 :=
        combine_start_mono config hm fe free busy (sortedDisjoint_cons_head hcf)
      have hbsbe : bs ≤ be := by
        have h6 := validRanges_cons_head hvb
        simpa using h6
      refine ⟨sortedDisjoint_emit ?_ ihc,
        disjointFrom_emit ?_ (disjointFrom_cons ?_ ihd)⟩
      · intro x hx
        show bs ≤ x.1
        have h6 := hrest x hx
        omega
      · intro b hb
        left
        show bs ≤ b.1
        rcases List.mem_cons.mp hb with hEq | hb'
        · subst hEq; exact le_refl _
        · have h7 := sortedDisjoint_cons_head hcb b hb'
          simp only at h7
          omega
      · intro x hx
        right
        show be ≤ x.1
        have h6 := hrest x hx
        omega

/-- With fuel `len(free) + len(busy)` the fuel-indexed sweep never runs out:
every step strictly decreases the combined number of unconsumed free and busy
intervals, so the sweep performs at most `len(free) + len(busy)` steps and
computes `combine_ranges`. -/
lemma combineFuel_spec (config : Config) : ∀ free busy fuel,
    free.length + busy.length ≤ fuel →
    combineFuel config fuel free busy = some (combine_ranges config free busy) := by
  intro free busy
  induction free, busy using combine_ranges.induct config with
  | case1 busy =>
      intro fuel _
      rw [combine_nil_free]
      cases fuel <;> rfl
  | case2 fs fe free ih =>
      intro fuel hf
      cases fuel with
      | zero => simp at hf
      | succ n =>
          rw [combine_nil_busy, combineFuel, ih n (by simp at hf ⊢; omega)]
          rfl
  | case3 fs fe free bs be busy h ih =>
      intro fuel hf
      cases fuel with
      | zero => simp at hf
      | succ n =>
          rw [combine_skip h, combineFuel]
          simp only [if_pos h]
          exact ih n (by simp at hf ⊢; omega)
  | case4 fs fe free bs be busy h1 h2 ih =>
      intro fuel hf
      cases fuel with
      | zero => simp at hf
      | succ n =>
          rw [combine_whole h1 h2, combineFuel]
          simp only [if_neg h1, if_pos h2]
          rw [ih n (by simp at hf ⊢; omega)]
          rfl
  | case5 fs fe free bs be busy h1 h2 h3 h4 ih =>
      intro fuel hf
      cases fuel with
      | zero => simp at hf
      | succ n =>
          rw [combine_cover h1 h2 h3 h4, combineFuel]
          simp only [if_neg h1, if_neg h2, if_pos h3, if_pos h4]
          exact ih n (by simp at hf ⊢; omega)
  | case6 fs fe free bs be busy h1 h2 h3 h4 h5 ih =>
      intro fuel hf
      cases fuel with
      | zero => simp at hf
      | succ n =>
          rw [combine_clip_mut h1 h2 h3 h4 h5, combineFuel]
          simp only [if_neg h1, if_neg h2, if_pos h3, if_neg h4, if_pos h5]
          exact ih n (by simp at hf ⊢; omega)
  | case7 fs fe free bs be busy h1 h2 h3 h4 h5 ih =>
      intro fuel hf
      cases fuel with
      | zero => simp at hf
      | succ n =>
          rw [combine_clip_drop h1 h2 h3 h4 h5, combineFuel]
          simp only [if_neg h1, if_neg h2, if_pos h3, if_neg h4, if_neg h5]
          exact ih n (by simp at hf ⊢; omega)
  | case8 fs fe free bs be busy h1 h2 h3 h4 ih =>
      intro fuel hf
      cases fuel with
      | zero => simp at hf
      | succ n =>
          rw [combine_tail h1 h2 h3 h4, combineFuel]
          simp only [if_neg h1, if_neg h2, if_neg h3, if_pos h4]
          rw [ih n (by simp at hf ⊢; omega)]
          rfl
  | case9 fs fe free bs be busy h1 h2 h3 h4 h5 ih =>
      intro fuel hf
      cases fuel with
      | zero => simp at hf
      | succ n =>
          rw [combine_mid_mut h1 h2 h3 h4 h5, combineFuel]
          simp only [if_neg h1, if_neg h2, if_neg h3, if_neg h4, if_pos h5]
          rw [ih n (by simp at hf ⊢; omega)]
          rfl
  | case10 fs fe free bs be busy h1 h2 h3 h4 h5 ih =>
      intro fuel hf
      cases fuel with
      | zero => simp at hf
      | succ n =>
          rw [combine_mid_drop h1 h2 h3 h4 h5, combineFuel]
          simp only [if_neg h1, if_neg h2, if_neg h3, if_neg h4, if_neg h5]
          rw [ih n (by simp at hf ⊢; omega)]
          rfl

/-- Turn a concrete `combineFuel` computation into a `combine_ranges` value. -/
lemma combine_eq_of_fuel (config : Config) (free busy : List TimeRange)
    (fuel : ℕ) (out : List TimeRange)
    (hfuel : free.length + busy.length ≤ fuel)
    (hrun : combineFuel config fuel free busy = some out) :
    combine_ranges config free busy = out := by
  have h := combineFuel_spec config free busy fuel hfuel
  rw [h] at hrun
  exact Option.some_inj.mp hrun

/-! ### Further arithmetic helpers -/

lemma fdiv60_mono {a b : ℤ} (h : a ≤ b) : a.fdiv 60 ≤ b.fdiv 60 := by
  rw [Int.fdiv_eq_ediv _ (by norm_num), Int.fdiv_eq_ediv _ (by norm_num)]
  exact Int.ediv_le_ediv (by norm_num) h

/-- `ceil_dt` only depends on the base through its residue modulo the grid. -/
lemma ceil_dt_congr {m : ℤ} (dt base base' : ℤ)
    (h : base % (m * 60) = base' % (m * 60)) :
    ceil_dt dt base m = ceil_dt dt base' m := by
  unfold ceil_dt
  rw [Int.sub_emod base dt, Int.sub_emod base' dt, h]

/-- If `x` lies between `dt` and `ceil_dt dt base m`, both round up to the
same grid point. -/
lemma ceil_dt_between {m : ℤ} (hm : 1 ≤ m) (dt base x : ℤ)
    (h1 : dt ≤ x) (h2 : x ≤ ceil_dt dt base m) :
    ceil_dt x base m = ceil_dt dt base m := by
  have ha : ceil_dt x base m ≤ ceil_dt dt base m :=
    ceil_dt_min hm x base _ h2 (ceil_dt_emod dt base m)
  have hb : ceil_dt dt base m ≤ ceil_dt x base m :=
    ceil_dt_min hm dt base _ (le_trans h1 (ceil_dt_ge hm x base)) (ceil_dt_emod x base m)
  omega

/-! ### Output bounds of the sweep -/

/-- The sweep never emits an interval ending after a common upper bound of
the free ends: emitted ends are either a free end or a busy start below the
free end, and head rewrites keep the end. -/
lemma combine_end_ub (config : Config) (u : ℤ) : ∀ free busy,
    (∀ f ∈ free, f.2 ≤ u) → ∀ r ∈ combine_ranges config free busy, r.2 ≤ u := by
  intro free busy
  induction free, busy using combine_ranges.induct config with
  | case1 busy => simp [combine_nil_free]
  | case2 fs fe free ih =>
      intro hf r hr
      rw [combine_nil_busy] at hr
      rcases mem_emit.mp hr with ⟨hEq, _⟩ | hr'
      · subst hEq; exact hf (fs, fe) (List.mem_cons_self _ _)
      · exact ih (fun f hf' => hf f (List.mem_cons_of_mem _ hf')) r hr'
  | case3 fs fe free bs be busy h ih =>
      intro hf; rw [combine_skip h]; exact ih hf
  | case4 fs fe free bs be busy h1 h2 ih =>
      intro hf r hr
      rw [combine_whole h1 h2] at hr
      rcases mem_emit.mp hr with ⟨hEq, _⟩ | hr'
      · subst hEq; exact hf (fs, fe) (List.mem_cons_self _ _)
      · exact ih (fun f hf' => hf f (List.mem_cons_of_mem _ hf')) r hr'
  | case5 fs fe free bs be busy h1 h2 h3 h4 ih =>
      intro hf; rw [combine_cover h1 h2 h3 h4]
      exact ih (fun f hf' => hf f (List.mem_cons_of_mem _ hf'))
  | case6 fs fe free bs be busy h1 h2 h3 h4 h5 ih =>
      intro hf; rw [combine_clip_mut h1 h2 h3 h4 h5]
      refine ih ?_
      intro f hf'
      rcases List.mem_cons.mp hf' with hEq | hf''
      · subst hEq; exact hf (fs, fe) (List.mem_cons_self _ _)
      · exact hf f (List.mem_cons_of_mem _ hf'')
  | case7 fs fe free bs be busy h1 h2 h3 h4 h5 ih =>
      intro hf; rw [combine_clip_drop h1 h2 h3 h4 h5]
      exact ih (fun f hf' => hf f (List.mem_cons_of_mem _ hf'))
  | case8 fs fe free bs be busy h1 h2 h3 h4 ih =>
      intro hf r hr
      rw [combine_tail h1 h2 h3 h4] at hr
      rcases mem_emit.mp hr with ⟨hEq, _⟩ | hr'
      · subst hEq
        show bs ≤ u
        have h6 := hf (fs, fe) (List.mem_cons_self _ _)
        simp only at h6
        omega
      · exact ih (fun f hf' => hf f (List.mem_cons_of_mem _ hf')) r hr'
  | case9 fs fe free bs be busy h1 h2 h3 h4 h5 ih =>
      intro hf r hr
      rw [combine_mid_mut h1 h2 h3 h4 h5] at hr
      rcases mem_emit.mp hr with ⟨hEq, _⟩ | hr'
      · subst hEq
        show bs ≤ u
        have h6 := hf (fs, fe) (List.mem_cons_self _ _)
        simp only at h6
        omega
      · refine ih ?_ r hr'
        intro f hf'
        rcases List.mem_cons.mp hf' with hEq | hf''
        · subst hEq; exact hf (fs, fe) (List.mem_cons_self _ _)
        · exact hf f (List.mem_cons_of_mem _ hf'')
  | case10 fs fe free bs be busy h1 h2 h3 h4 h5 ih =>
      intro hf r hr
      rw [combine_mid_drop h1 h2 h3 h4 h5] at hr
      rcases mem_emit.mp hr with ⟨hEq, _⟩ | hr'
      · subst hEq
        show bs ≤ u
        have h6 := hf (fs, fe) (List.mem_cons_self _ _)
        simp only at h6
        omega
      · exact ih (fun f hf' => hf f (List.mem_cons_of_mem _ hf')) r hr'

/-- Sweeping a single free interval against busy intervals that all start at
or after its end just re-emits the interval (modulo the length check). -/
lemma combine_all_after (config : Config) {s e : ℤ} : ∀ busy,
    (∀ b ∈ busy, e ≤ b.1) →
    combine_ranges config [(s, e)] busy =
      emit config.meeting_length_minutes (s, e) [] := by
  intro busy
  induction busy with
  | nil => intro _; rw [combine_nil_busy, combine_nil_free]
  | cons b busy ih =>
      intro hb
      obtain ⟨bs, be⟩ := b
      have hbs : e ≤ bs := hb (bs, be) (List.mem_cons_self _ _)
      by_cases h : be ≤ s
      · rw [combine_skip h]
        exact ih (fun b hb' => hb b (List.mem_cons_of_mem _ hb'))
      · rw [combine_whole h hbs, combine_nil_free]

/-- A single free interval shorter than the minimum length contributes no
output, whatever the busy list. -/
lemma combine_single_short (config : Config)
    (hm : 1 ≤ config.meeting_length_minutes) {s e : ℤ}
    (hshort : (e - s).fdiv 60 < config.meeting_length_minutes) :
    ∀ busy, combine_ranges config [(s, e)] busy = [] := by
  intro busy
  rw [List.eq_nil_iff_forall_not_mem]
  intro r hr
  have h1 : s ≤ r.1 := by
    refine combine_start_mono config hm s [(s, e)] busy ?_ r hr
    intro f hf
    rcases List.mem_cons.mp hf with hEq | hf'
    · subst hEq; exact le_refl _
    · exact absurd hf' (List.not_mem_nil f)
  have h2 : r.2 ≤ e := by
    refine combine_end_ub config e [(s, e)] busy ?_ r hr
    intro f hf
    rcases List.mem_cons.mp hf with hEq | hf'
    · subst hEq; exact le_refl _
    · exact absurd hf' (List.not_mem_nil f)
  have h3 := combine_min_length config [(s, e)] busy r hr
  have h4 : (r.2 - r.1).fdiv 60 ≤ (e - s).fdiv 60 := fdiv60_mono (by omega)
  omega

/-- Busy intervals ending at or before every free start are skipped by the
inner `while` and do not affect the sweep. -/
lemma combine_skip_prefix (config : Config) : ∀ pre free busy,
    (∀ b ∈ pre, ∀ f ∈ free, b.2 ≤ f.1) →
    combine_ranges config free (pre ++ busy) = combine_ranges config free busy := by
  intro pre
  induction pre with
  | nil => intro free busy _; rfl
  | cons b pre ih =>
      intro free busy h
      cases free with
      | nil => rw [combine_nil_free, combine_nil_free]
      | cons f free' =>
          obtain ⟨fs, fe⟩ := f
          obtain ⟨bs, be⟩ := b
          rw [List.cons_append,
            combine_skip (h (bs, be) (List.mem_cons_self _ _) (fs, fe)
              (List.mem_cons_self _ _))]
          exact ih _ _ (fun b hb f hf => h b (List.mem_cons_of_mem _ hb) f hf)

/-- Specialisation of `combine_skip_prefix` to one busy interval. -/
lemma combine_skip_one (config : Config) {free busy : List TimeRange} {b : TimeRange}
    (h : ∀ f ∈ free, b.2 ≤ f.1) :
    combine_ranges config free (b :: busy) = combine_ranges config free busy :=
  combine_skip_prefix config [b] free busy
    (fun b' hb' f hf => by
      rcases List.mem_cons.mp hb' with hEq | hb''
      · subst hEq; exact h f hf
      · exact absurd hb'' (List.not_mem_nil b'))

/-- Sweeping the possibly-emitted single interval against busy intervals that
all start at or after its end changes nothing. -/
lemma combine_emit_all_after (config : Config) {s x : ℤ} {busy : List TimeRange}
    (hb : ∀ b ∈ busy, x ≤ b.1) :
    combine_ranges config (emit config.meeting_length_minutes (s, x) []) busy =
      emit config.meeting_length_minutes (s, x) [] := by
  unfold emit
  split
  · rw [combine_all_after config busy hb]
    unfold emit
    split
    · rfl
    · simp_all
  · exact combine_nil_free

lemma emit_nil_append {m : ℤ} {r : TimeRange} {rest : List TimeRange} :
    emit m r [] ++ rest = emit m r rest := by
  unfold emit
  split <;> simp

lemma emit_append {m : ℤ} {r : TimeRange} {L1 L2 : List TimeRange} :
    emit m r L1 ++ L2 = emit m r (L1 ++ L2) := by
  unfold emit
  split <;> simp

/-- The sweep processes free intervals one at a time: its output on
`f :: free'` is its output on `[f]` followed by its output on `free'`.
Busy intervals consumed while processing `f` end before every interval of
`free'` and would be skipped by the inner `while` anyway. -/
lemma combine_decomp (config : Config) : ∀ free busy,
    ValidRanges free → SortedDisjoint free →
    ∀ f free', free = f :: free' →
    combine_ranges config free busy =
      combine_ranges config [f] busy ++ combine_ranges config free' busy := by
  intro free busy
  induction free, busy using combine_ranges.induct config with
  | case1 busy =>
      intro _ _ f free' hEq
      exact absurd hEq (List.cons_ne_nil f free').symm
  | case2 fs fe free ih =>
      intro _ _ f free' hEq
      obtain ⟨hf, hfree⟩ := List.cons.injEq .. ▸ hEq
      subst hf; subst hfree
      have h1 : combine_ranges config [(fs, fe)] [] =
          emit config.meeting_length_minutes (fs, fe) [] := by
        rw [combine_nil_busy, combine_nil_free]
      rw [combine_nil_busy, h1, emit_nil_append]
  | case3 fs fe free bs be busy h ih =>
      intro hvf hcf f free' hEq
      obtain ⟨hf, hfree⟩ := List.cons.injEq .. ▸ hEq
      subst hf; subst hfree
      rw [combine_skip h, ih hvf hcf (fs, fe) free rfl,
        @combine_skip config fs fe bs be [] busy h,
        combine_skip_one config (fun f' hf' =>
          le_trans (le_trans h (validRanges_cons_head hvf))
            (sortedDisjoint_cons_head hcf f' hf'))]
  | case4 fs fe free bs be busy h1 h2 ih =>
      intro _ _ f free' hEq
      obtain ⟨hf, hfree⟩ := List.cons.injEq .. ▸ hEq
      subst hf; subst hfree
      have h3 : combine_ranges config [(fs, fe)] ((bs, be) :: busy) =
          emit config.meeting_length_minutes (fs, fe) [] := by
        rw [combine_whole h1 h2, combine_nil_free]
      rw [combine_whole h1 h2, h3, emit_nil_append]
  | case5 fs fe free bs be busy h1 h2 h3 h4 ih =>
      intro _ _ f free' hEq
      obtain ⟨hf, hfree⟩ := List.cons.injEq .. ▸ hEq
      subst hf; subst hfree
      have h5 : combine_ranges config [(fs, fe)] ((bs, be) :: busy) = [] := by
        rw [combine_cover h1 h2 h3 h4, combine_nil_free]
      rw [combine_cover h1 h2 h3 h4, h5, List.nil_append]
  | case6 fs fe free bs be busy h1 h2 h3 h4 h5 ih =>
      intro hvf hcf f free' hEq
      obtain ⟨hf, hfree⟩ := List.cons.injEq .. ▸ hEq
      subst hf; subst hfree
      have hvalid' : ValidRanges ((ceil_dt be fs config.meeting_length_minutes, fe) :: free) :=
        validRanges_cons (le_of_lt h5) (validRanges_cons_tail hvf)
      have hchain' : SortedDisjoint ((ceil_dt be fs config.meeting_length_minutes, fe) :: free) :=
        List.pairwise_cons.mpr ⟨fun x hx => sortedDisjoint_cons_head hcf x hx,
          sortedDisjoint_cons_tail hcf⟩
      rw [combine_clip_mut h1 h2 h3 h4 h5, ih hvalid' hchain' _ free rfl,
        @combine_clip_mut config fs fe bs be [] busy h1 h2 h3 h4 h5,
        combine_skip_one config (fun f' hf' =>
          le_trans (by omega : be ≤ fe) (sortedDisjoint_cons_head hcf f' hf'))]
  | case7 fs fe free bs be busy h1 h2 h3 h4 h5 ih =>
      intro hvf hcf f free' hEq
      obtain ⟨hf, hfree⟩ := List.cons.injEq .. ▸ hEq
      subst hf; subst hfree
      have h6 : combine_ranges config [(fs, fe)] ((bs, be) :: busy) = [] := by
        rw [combine_clip_drop h1 h2 h3 h4 h5, combine_nil_free]
      rw [combine_clip_drop h1 h2 h3 h4 h5, h6, List.nil_append,
        combine_skip_one config (fun f' hf' =>
          le_trans (by omega : be ≤ fe) (sortedDisjoint_cons_head hcf f' hf'))]
  | case8 fs fe free bs be busy h1 h2 h3 h4 ih =>
      intro _ _ f free' hEq
      obtain ⟨hf, hfree⟩ := List.cons.injEq .. ▸ hEq
      subst hf; subst hfree
      have h5 : combine_ranges config [(fs, fe)] ((bs, be) :: busy) =
          emit config.meeting_length_minutes (fs, bs) [] := by
        rw [combine_tail h1 h2 h3 h4, combine_nil_free]
      rw [combine_tail h1 h2 h3 h4, h5, emit_nil_append]
  | case9 fs fe free bs be busy h1 h2 h3 h4 h5 ih =>
      intro hvf hcf f free' hEq
      obtain ⟨hf, hfree⟩ := List.cons.injEq .. ▸ hEq
      subst hf; subst hfree
      have hvalid' : ValidRanges ((ceil_dt be fs config.meeting_length_minutes, fe) :: free) :=
        validRanges_cons (le_of_lt h5) (validRanges_cons_tail hvf)
      have hchain' : SortedDisjoint ((ceil_dt be fs config.meeting_length_minutes, fe) :: free) :=
        List.pairwise_cons.mpr ⟨fun x hx => sortedDisjoint_cons_head hcf x hx,
          sortedDisjoint_cons_tail hcf⟩
      rw [combine_mid_mut h1 h2 h3 h4 h5, ih hvalid' hchain' _ free rfl,
        @combine_mid_mut config fs fe bs be [] busy h1 h2 h3 h4 h5,
        combine_skip_one config (fun f' hf' =>
          le_trans (by omega : be ≤ fe) (sortedDisjoint_cons_head hcf f' hf')),
        emit_append]
  | case10 fs fe free bs be busy h1 h2 h3 h4 h5 ih =>
      intro hvf hcf f free' hEq
      obtain ⟨hf, hfree⟩ := List.cons.injEq .. ▸ hEq
      subst hf; subst hfree
      have h6 : combine_ranges config [(fs, fe)] ((bs, be) :: busy) =
          emit config.meeting_length_minutes (fs, bs) [] := by
        rw [combine_mid_drop h1 h2 h3 h4 h5, combine_nil_free]
      rw [combine_mid_drop h1 h2 h3 h4 h5, h6,
        combine_skip_one config (fun f' hf' =>
          le_trans (by omega : be ≤ fe) (sortedDisjoint_cons_head hcf f' hf')),
        emit_nil_append]

/-- Append form of `combine_decomp`. -/
lemma combine_append (config : Config) : ∀ X Y busy,
    ValidRanges (X ++ Y) → SortedDisjoint (X ++ Y) →
    combine_ranges config (X ++ Y) busy =
      combine_ranges config X busy ++ combine_ranges config Y busy := by
  intro X
  induction X with
  | nil =>
      intro Y busy _ _
      rw [List.nil_append, combine_nil_free, List.nil_append]
  | cons x X ih =>
      intro Y busy hv hc
      have hsub : (x :: X).Sublist (x :: (X ++ Y)) :=
        (List.sublist_append_left X Y).cons₂ x
      have hcx : SortedDisjoint (x :: X) := List.Pairwise.sublist hsub hc
      have hvx : ValidRanges (x :: X) := fun r hr => hv r (hsub.subset hr)
      rw [List.cons_append,
        combine_decomp config (x :: (X ++ Y)) busy hv hc x (X ++ Y) rfl,
        ih Y busy (validRanges_cons_tail hv) (sortedDisjoint_cons_tail hc),
        combine_decomp config (x :: X) busy hvx hcx x X rfl,
        List.append_assoc]

/-- Splitting off the first busy interval: sweeping against `c :: busy` is
sweeping against `[c]` and then against `busy`, for a single free interval,
provided every interval of `busy` starts at or after `c` ends. -/
lemma combine_busy_split_single (config : Config)
    (hm : 1 ≤ config.meeting_length_minutes) {s e cs ce : ℤ} {busy : List TimeRange}
    (hc : cs ≤ ce) (hB : ∀ b ∈ busy, ce ≤ b.1) :
    combine_ranges config [(s, e)] ((cs, ce) :: busy) =
      combine_ranges config (combine_ranges config [(s, e)] [(cs, ce)]) busy := by
  by_cases h1 : ce ≤ s
  · rw [combine_skip h1]
    have h2 : combine_ranges config [(s, e)] [(cs, ce)] =
        emit config.meeting_length_minutes (s, e) [] := by
      rw [combine_skip h1, combine_nil_busy, combine_nil_free]
    rw [h2]
    unfold emit
    split
    · rfl
    · rename_i hlen
      rw [combine_nil_free, combine_single_short config hm (by simp only at hlen; omega) busy]
  · by_cases h2 : e ≤ cs
    · have h3 : combine_ranges config [(s, e)] [(cs, ce)] =
          emit config.meeting_length_minutes (s, e) [] := by
        rw [combine_whole h1 h2, combine_nil_free]
      rw [combine_whole h1 h2, combine_nil_free, h3,
        combine_emit_all_after config (fun b hb => le_trans (le_trans h2 hc) (hB b hb))]
    · by_cases h3 : cs ≤ s
      · by_cases h4 : e ≤ ce
        · have h5 : combine_ranges config [(s, e)] [(cs, ce)] = [] := by
            rw [combine_cover h1 h2 h3 h4, combine_nil_free]
          rw [combine_cover h1 h2 h3 h4, combine_nil_free, h5, combine_nil_free]
        · by_cases h5 : ceil_dt ce s config.meeting_length_minutes < e
          · rw [combine_clip_mut h1 h2 h3 h4 h5]
            have h6 : combine_ranges config [(s, e)] [(cs, ce)] =
                emit config.meeting_length_minutes
                  (ceil_dt ce s config.meeting_length_minutes, e) [] := by
              rw [combine_clip_mut h1 h2 h3 h4 h5, combine_nil_busy, combine_nil_free]
            rw [h6]
            unfold emit
            split
            · rfl
            · rename_i hlen
              rw [combine_nil_free,
                combine_single_short config hm (by simp only at hlen; omega) busy]
          · rw [combine_clip_drop h1 h2 h3 h4 h5]
            have h6 : combine_ranges config [(s, e)] [(cs, ce)] = [] := by
              rw [combine_clip_drop h1 h2 h3 h4 h5, combine_nil_free]
            rw [h6, combine_nil_free]
      · by_cases h4 : e ≤ ce
        · have h5 : combine_ranges config [(s, e)] [(cs, ce)] =
              emit config.meeting_length_minutes (s, cs) [] := by
            rw [combine_tail h1 h2 h3 h4, combine_nil_free]
          rw [combine_tail h1 h2 h3 h4, combine_nil_free, h5,
            combine_emit_all_after config (fun b hb => le_trans hc (hB b hb))]
        · by_cases h5 : ceil_dt ce s config.meeting_length_minutes < e
          · rw [combine_mid_mut h1 h2 h3 h4 h5]
            have h6 : combine_ranges config [(s, e)] [(cs, ce)] =
                emit config.meeting_length_minutes (s, cs)
                  (emit config.meeting_length_minutes
                    (ceil_dt ce s config.meeting_length_minutes, e) []) := by
              rw [combine_mid_mut h1 h2 h3 h4 h5, combine_nil_busy, combine_nil_free]
            rw [h6]
            have hcsns : cs ≤ ceil_dt ce s config.meeting_length_minutes :=
              le_trans hc (ceil_dt_ge hm ce s)
            conv_lhs => rw [emit]
            conv_rhs => rw [emit]
            split
            · rename_i hlen1
              conv_rhs => rw [emit]
              split
              · rename_i hlen2
                have hdec := combine_decomp config
                  [(s, cs), (ceil_dt ce s config.meeting_length_minutes, e)] busy
                  (by
                    intro r hr
                    rcases List.mem_cons.mp hr with hEq | hr'
                    · subst hEq; simp only; omega
                    · rcases List.mem_cons.mp hr' with hEq | hr''
                      · subst hEq; simp only; omega
                      · exact absurd hr'' (List.not_mem_nil r))
                  (by
                    refine List.pairwise_cons.mpr ⟨?_, List.pairwise_singleton _ _⟩
                    intro x hx
                    rcases List.mem_cons.mp hx with hEq | hx'
                    · subst hEq; simp only; omega
                    · exact absurd hx' (List.not_mem_nil x))
                  (s, cs) [(ceil_dt ce s config.meeting_length_minutes, e)] rfl
                rw [hdec, combine_all_after config busy (fun b hb => le_trans hc (hB b hb))]
                unfold emit
                rw [if_pos hlen1]
                rfl
              · rename_i hlen2
                rw [combine_all_after config busy (fun b hb => le_trans hc (hB b hb)),
                  combine_single_short config hm (by simp only at hlen2; omega) busy]
                unfold emit
                rw [if_pos hlen1]
            · rename_i hlen1
              conv_rhs => rw [emit]
              split
              · rfl
              · rename_i hlen2
                rw [combine_nil_free,
                  combine_single_short config hm (by simp only at hlen2; omega) busy]
          · rw [combine_mid_drop h1 h2 h3 h4 h5, combine_nil_free]
            have h6 : combine_ranges config [(s, e)] [(cs, ce)] =
                emit config.meeting_length_minutes (s, cs) [] := by
              rw [combine_mid_drop h1 h2 h3 h4 h5, combine_nil_free]
            rw [h6, combine_emit_all_after config (fun b hb => le_trans hc (hB b hb))]

/-- Outputs of the sweep are non-degenerate once the minimum length is
at least one minute. -/
lemma combine_output_valid (config : Config)
    (hm : 1 ≤ config.meeting_length_minutes) (free busy : List TimeRange) :
    ValidRanges (combine_ranges config free busy) := by
  intro r hr
  have h := combine_min_length config free busy r hr
  by_contra hlt
  push_neg at hlt
  have h2 : r.2 - r.1 ≤ -1 := by omega
  have h3 : (r.2 - r.1).fdiv 60 ≤ (-1 : ℤ).fdiv 60 := fdiv60_mono h2
  have h4 : (-1 : ℤ).fdiv 60 = -1 := by decide
  omega

lemma validRanges_append {L1 L2 : List TimeRange}
    (h1 : ValidRanges L1) (h2 : ValidRanges L2) : ValidRanges (L1 ++ L2) := by
  intro r hr
  rcases List.mem_append.mp hr with hr' | hr'
  · exact h1 r hr'
  · exact h2 r hr'

lemma sortedDisjoint_append {L1 L2 : List TimeRange}
    (h1 : SortedDisjoint L1) (h2 : SortedDisjoint L2)
    (h12 : ∀ a ∈ L1, ∀ b ∈ L2, a.2 ≤ b.1) : SortedDisjoint (L1 ++ L2) :=
  List.pairwise_append.mpr ⟨h1, h2, h12⟩

/-- General busy-split: sweeping a sorted non-overlapping free list against
`c :: busy` equals sweeping the result of the `[c]`-sweep against `busy`,
provided all of `busy` starts at or after `c` ends. -/
lemma combine_busy_split (config : Config)
    (hm : 1 ≤ config.meeting_length_minutes) : ∀ X busy (c : TimeRange),
    ValidRanges X → SortedDisjoint X → c.1 ≤ c.2 → (∀ b ∈ busy, c.2 ≤ b.1) →
    combine_ranges config X (c :: busy) =
      combine_ranges config (combine_ranges config X [c]) busy := by
  intro X
  induction X with
  | nil =>
      intro busy c _ _ _ _
      rw [combine_nil_free, combine_nil_free, combine_nil_free]
  | cons x X ih =>
      intro busy c hv hc hcv hB
      obtain ⟨xs, xe⟩ := x
      obtain ⟨cs, ce⟩ := c
      have hvalid1 : ValidRanges (combine_ranges config [(xs, xe)] [(cs, ce)]) :=
        combine_output_valid config hm _ _
      have hvalid2 : ValidRanges (combine_ranges config X [(cs, ce)]) :=
        combine_output_valid config hm _ _
      have hchain1 : SortedDisjoint (combine_ranges config [(xs, xe)] [(cs, ce)]) :=
        (combine_main config hm [(xs, xe)] [(cs, ce)]
          (List.pairwise_singleton _ _)
          (fun r hr => by
            rcases List.mem_cons.mp hr with hEq | hr'
            · subst hEq; exact hv (xs, xe) (List.mem_cons_self _ _)
            · exact absurd hr' (List.not_mem_nil r))
          (List.pairwise_singleton _ _)
          (fun r hr => by
            rcases List.mem_cons.mp hr with hEq | hr'
            · subst hEq; exact hcv
            · exact absurd hr' (List.not_mem_nil r))).1
      have hchain2 : SortedDisjoint (combine_ranges config X [(cs, ce)]) :=
        (combine_main config hm X [(cs, ce)]
          (sortedDisjoint_cons_tail hc) (validRanges_cons_tail hv)
          (List.pairwise_singleton _ _)
          (fun r hr => by
            rcases List.mem_cons.mp hr with hEq | hr'
            · subst hEq; exact hcv
            · exact absurd hr' (List.not_mem_nil r))).1
      have hcross : ∀ a ∈ combine_ranges config [(xs, xe)] [(cs, ce)],
          ∀ b ∈ combine_ranges config X [(cs, ce)], a.2 ≤ b.1 := by
        intro a ha b hb
        have ha2 : a.2 ≤ xe := by
          refine combine_end_ub config xe [(xs, xe)] [(cs, ce)] ?_ a ha
          intro f hf
          rcases List.mem_cons.mp hf with hEq | hf'
          · subst hEq; exact le_refl _
          · exact absurd hf' (List.not_mem_nil f)
        have hb1 : xe ≤ b.1 :=
          combine_start_mono config hm xe X [(cs, ce)]
            (sortedDisjoint_cons_head hc) b hb
        omega
      rw [combine_decomp config ((xs, xe) :: X) ((cs, ce) :: busy) hv hc _ X rfl,
        combine_busy_split_single config hm
          (show cs ≤ ce from hcv) hB,
        ih busy (cs, ce) (validRanges_cons_tail hv) (sortedDisjoint_cons_tail hc) hcv hB,
        combine_decomp config ((xs, xe) :: X) [(cs, ce)] hv hc _ X rfl,
        combine_append config _ _ busy (validRanges_append hvalid1 hvalid2)
          (sortedDisjoint_append hchain1 hchain2 hcross)]

lemma emit_pos {m : ℤ} {r : TimeRange} {rest : List TimeRange}
    (h : m ≤ (r.2 - r.1).fdiv 60) : emit m r rest = r :: rest := by
  unfold emit
  rw [if_pos h]

lemma emit_neg {m : ℤ} {r : TimeRange} {rest : List TimeRange}
    (h : ¬m ≤ (r.2 - r.1).fdiv 60) : emit m r rest = rest := by
  unfold emit
  rw [if_neg h]

/-- Re-sweeping a sweep output against no busy intervals is the identity. -/
lemma combine_idem_nil (config : Config) (free busy : List TimeRange) :
    combine_ranges config (combine_ranges config free busy) [] =
      combine_ranges config free busy :=
  combine_nil_busy_id config _ (combine_min_length config free busy)

/-- A sweep output left of a busy interval is untouched by it. -/
lemma combine_output_skip (config : Config) {free busy : List TimeRange}
    {b : TimeRange} (h : ∀ r ∈ combine_ranges config free busy, b.2 ≤ r.1) :
    combine_ranges config (combine_ranges config free busy) [b] =
      combine_ranges config free busy := by
  rw [combine_skip_one config h, combine_idem_nil]

/-- Hoisting an early busy interval that covers the free start over a later
busy list: first subtracting the later intervals `B1` and then clipping by
`(bs, be)` equals first clipping the start to the grid point `ceil_dt be s m`
and then subtracting `B1`.  Requires every interval of `B1` to start at or
after `be`. -/
lemma combine_outer_clip_left (config : Config)
    (hm : 1 ≤ config.meeting_length_minutes) {s e bs be : ℤ} :
    ∀ B1 : List TimeRange,
    SortedDisjoint B1 → ValidRanges B1 →
    bs ≤ s → ¬be ≤ s → ¬e ≤ be → (∀ c ∈ B1, be ≤ c.1) →
    combine_ranges config (combine_ranges config [(s, e)] B1) [(bs, be)] =
      if ceil_dt be s config.meeting_length_minutes < e then
        combine_ranges config
          [(ceil_dt be s config.meeting_length_minutes, e)] B1
      else [] := by
  intro B1 hchain hvalid hbs hbe1 hbe2 hb1
  have hns_ge : be ≤ ceil_dt be s config.meeting_length_minutes := ceil_dt_ge hm be s
  have hns_emod := ceil_dt_emod be s config.meeting_length_minutes
  cases B1 with
  | nil =>
      rw [combine_nil_busy, combine_nil_free]
      by_cases hlen : config.meeting_length_minutes ≤ (e - s).fdiv 60
      · rw [emit_pos hlen]
        by_cases hns : ceil_dt be s config.meeting_length_minutes < e
        · rw [combine_clip_mut hbe1 (by omega) hbs hbe2 hns, if_pos hns]
        · rw [combine_clip_drop hbe1 (by omega) hbs hbe2 hns, combine_nil_free,
            if_neg hns]
      · rw [emit_neg hlen, combine_nil_free]
        by_cases hns : ceil_dt be s config.meeting_length_minutes < e
        · rw [if_pos hns,
            combine_single_short config hm
              (by
                have h6 : (e - ceil_dt be s config.meeting_length_minutes).fdiv 60 ≤
                    (e - s).fdiv 60 := fdiv60_mono (by omega)
                omega) []]
        · rw [if_neg hns]
  | cons c B1' =>
      obtain ⟨c1s, c1e⟩ := c
      have hbc : be ≤ c1s := hb1 (c1s, c1e) (List.mem_cons_self _ _)
      have hc1v : c1s ≤ c1e := hvalid _ (List.mem_cons_self _ _)
      have hc1B : ∀ x ∈ B1', c1e ≤ x.1 := sortedDisjoint_cons_head hchain
      by_cases hA : e ≤ c1s
      · have hX : combine_ranges config [(s, e)] ((c1s, c1e) :: B1') =
            emit config.meeting_length_minutes (s, e) [] := by
          rw [combine_whole (by omega) hA, combine_nil_free]
        rw [hX]
        by_cases hlen : config.meeting_length_minutes ≤ (e - s).fdiv 60
        · rw [emit_pos hlen]
          by_cases hns : ceil_dt be s config.meeting_length_minutes < e
          · rw [combine_clip_mut hbe1 (by omega) hbs hbe2 hns, if_pos hns,
              combine_whole (by omega) hA, combine_nil_free, combine_nil_busy,
              combine_nil_free]
          · rw [combine_clip_drop hbe1 (by omega) hbs hbe2 hns, combine_nil_free,
              if_neg hns]
        · rw [emit_neg hlen, combine_nil_free]
          by_cases hns : ceil_dt be s config.meeting_length_minutes < e
          · rw [if_pos hns,
              combine_single_short config hm
                (by
                  have h6 : (e - ceil_dt be s config.meeting_length_minutes).fdiv 60 ≤
                      (e - s).fdiv 60 := fdiv60_mono (by omega)
                  omega) _]
          · rw [if_neg hns]
      · by_cases hC : e ≤ c1e
        · have hX : combine_ranges config [(s, e)] ((c1s, c1e) :: B1') =
              emit config.meeting_length_minutes (s, c1s) [] := by
            rw [combine_tail (by omega) hA (by omega) hC, combine_nil_free]
          rw [hX]
          have hRHS : (if ceil_dt be s config.meeting_length_minutes < e then
                combine_ranges config
                  [(ceil_dt be s config.meeting_length_minutes, e)] ((c1s, c1e) :: B1')
              else []) =
              if ceil_dt be s config.meeting_length_minutes < c1s then
                emit config.meeting_length_minutes
                  (ceil_dt be s config.meeting_length_minutes, c1s) []
              else [] := by
            by_cases hns : ceil_dt be s config.meeting_length_minutes < e
            · rw [if_pos hns]
              by_cases hnsc1 : ceil_dt be s config.meeting_length_minutes < c1s
              · rw [if_pos hnsc1,
                  combine_tail (by omega) hA (by omega) hC, combine_nil_free]
              · rw [if_neg hnsc1,
                  combine_cover (by omega) hA (by omega) hC, combine_nil_free]
            · rw [if_neg hns, if_neg (by omega : ¬ceil_dt be s config.meeting_length_minutes < c1s)]
          rw [hRHS]
          by_cases hlen : config.meeting_length_minutes ≤ (c1s - s).fdiv 60
          · rw [emit_pos hlen]
            by_cases hbec1 : c1s ≤ be
            · rw [combine_cover (by omega) (by omega) hbs hbec1, combine_nil_free,
                if_neg (by omega : ¬ceil_dt be s config.meeting_length_minutes < c1s)]
            · by_cases hnsc1 : ceil_dt be s config.meeting_length_minutes < c1s
              · rw [combine_clip_mut (by omega) (by omega) hbs hbec1 hnsc1,
                  combine_nil_busy, combine_nil_free, if_pos hnsc1]
              · rw [combine_clip_drop (by omega) (by omega) hbs hbec1 hnsc1,
                  combine_nil_free, if_neg hnsc1]
          · rw [emit_neg hlen, combine_nil_free]
            by_cases hnsc1 : ceil_dt be s config.meeting_length_minutes < c1s
            · rw [if_pos hnsc1,
                emit_neg
                  (by
                    have h6 : (c1s - ceil_dt be s config.meeting_length_minutes).fdiv 60 ≤
                        (c1s - s).fdiv 60 := fdiv60_mono (by omega)
                    simp only
                    omega)]
            · rw [if_neg hnsc1]
        · -- the first later busy interval cuts strictly inside [s, e)
          have hnsc_ge : c1e ≤ ceil_dt c1e s config.meeting_length_minutes :=
            ceil_dt_ge hm c1e s
          have hnsc_emod := ceil_dt_emod c1e s config.meeting_length_minutes
          have hns_le_nsc : ceil_dt be s config.meeting_length_minutes ≤
              ceil_dt c1e s config.meeting_length_minutes :=
            ceil_dt_min hm be s _ (by omega) hnsc_emod
          by_cases hG : ceil_dt c1e s config.meeting_length_minutes < e
          · -- continuation Z = combine [(nsc, e)] B1'
            have hX : combine_ranges config [(s, e)] ((c1s, c1e) :: B1') =
                emit config.meeting_length_minutes (s, c1s)
                  (combine_ranges config
                    [(ceil_dt c1e s config.meeting_length_minutes, e)] B1') := by
              rw [combine_mid_mut (by omega) hA (by omega) hC hG]
            have hZstart : ∀ z ∈ combine_ranges config
                [(ceil_dt c1e s config.meeting_length_minutes, e)] B1',
                ceil_dt c1e s config.meeting_length_minutes ≤ z.1 := by
              refine combine_start_mono config hm _ _ B1' ?_
              intro f hf
              rcases List.mem_cons.mp hf with hEq | hf'
              · subst hEq; exact le_refl _
              · exact absurd hf' (List.not_mem_nil f)
            have hZskip : combine_ranges config
                (combine_ranges config
                  [(ceil_dt c1e s config.meeting_length_minutes, e)] B1') [(bs, be)] =
                combine_ranges config
                  [(ceil_dt c1e s config.meeting_length_minutes, e)] B1' :=
              combine_output_skip config (fun r hr => by
                have h6 := hZstart r hr
                omega)
            have hZnil : combine_ranges config
                (combine_ranges config
                  [(ceil_dt c1e s config.meeting_length_minutes, e)] B1') [] =
                combine_ranges config
                  [(ceil_dt c1e s config.meeting_length_minutes, e)] B1' :=
              combine_idem_nil config _ _
            have hRHS : (if ceil_dt be s config.meeting_length_minutes < e then
                  combine_ranges config
                    [(ceil_dt be s config.meeting_length_minutes, e)] ((c1s, c1e) :: B1')
                else []) =
                if ceil_dt be s config.meeting_length_minutes < c1s then
                  emit config.meeting_length_minutes
                    (ceil_dt be s config.meeting_length_minutes, c1s)
                    (combine_ranges config
                      [(ceil_dt c1e s config.meeting_length_minutes, e)] B1')
                else
                  combine_ranges config
                    [(ceil_dt c1e s config.meeting_length_minutes, e)] B1' := by
              by_cases hns : ceil_dt be s config.meeting_length_minutes < e
              · rw [if_pos hns]
                by_cases hskip : c1e ≤ ceil_dt be s config.meeting_length_minutes
                · have hnsceq : ceil_dt c1e s config.meeting_length_minutes =
                      ceil_dt be s config.meeting_length_minutes :=
                    le_antisymm (ceil_dt_min hm c1e s _ hskip hns_emod) hns_le_nsc
                  rw [combine_skip hskip,
                    if_neg (by omega : ¬ceil_dt be s config.meeting_length_minutes < c1s),
                    hnsceq]
                · have hcongr : ceil_dt c1e
                      (ceil_dt be s config.meeting_length_minutes)
                      config.meeting_length_minutes =
                      ceil_dt c1e s config.meeting_length_minutes :=
                    ceil_dt_congr c1e _ s hns_emod
                  by_cases hnsc1 : c1s ≤ ceil_dt be s config.meeting_length_minutes
                  · rw [combine_clip_mut (by omega) hA hnsc1 hC (by rw [hcongr]; exact hG),
                      hcongr,
                      if_neg (by omega : ¬ceil_dt be s config.meeting_length_minutes < c1s)]
                  · rw [combine_mid_mut (by omega) hA (by omega) hC (by rw [hcongr]; exact hG),
                      hcongr, if_pos (by omega)]
              · rw [if_neg hns]
                omega
            rw [hX, hRHS]
            by_cases hlen : config.meeting_length_minutes ≤ (c1s - s).fdiv 60
            · rw [emit_pos hlen]
              by_cases hbec1 : c1s ≤ be
              · rw [combine_cover (by omega) (by omega) hbs hbec1, hZskip,
                  if_neg (by omega : ¬ceil_dt be s config.meeting_length_minutes < c1s)]
              · by_cases hnsc1 : ceil_dt be s config.meeting_length_minutes < c1s
                · rw [combine_clip_mut (by omega) (by omega) hbs hbec1 hnsc1,
                    combine_nil_busy, hZnil, if_pos hnsc1]
                · rw [combine_clip_drop (by omega) (by omega) hbs hbec1 hnsc1,
                    hZnil, if_neg hnsc1]
            · rw [emit_neg hlen, hZskip]
              by_cases hnsc1 : ceil_dt be s config.meeting_length_minutes < c1s
              · rw [if_pos hnsc1,
                  emit_neg
                    (by
                      have h6 : (c1s - ceil_dt be s config.meeting_length_minutes).fdiv 60 ≤
                          (c1s - s).fdiv 60 := fdiv60_mono (by omega)
                      simp only
                      omega)]
              · rw [if_neg hnsc1]
          · -- continuation Z = []
            have hX : combine_ranges config [(s, e)] ((c1s, c1e) :: B1') =
                emit config.meeting_length_minutes (s, c1s) [] := by
              rw [combine_mid_drop (by omega) hA (by omega) hC hG, combine_nil_free]
            have hRHS : (if ceil_dt be s config.meeting_length_minutes < e then
                  combine_ranges config
                    [(ceil_dt be s config.meeting_length_minutes, e)] ((c1s, c1e) :: B1')
                else []) =
                if ceil_dt be s config.meeting_length_minutes < c1s then
                  emit config.meeting_length_minutes
                    (ceil_dt be s config.meeting_length_minutes, c1s) []
                else [] := by
              by_cases hns : ceil_dt be s config.meeting_length_minutes < e
              · rw [if_pos hns]
                have hnoskip : ¬c1e ≤ ceil_dt be s config.meeting_length_minutes := by
                  intro hskip
                  have hnsceq : ceil_dt c1e s config.meeting_length_minutes ≤
                      ceil_dt be s config.meeting_length_minutes :=
                    ceil_dt_min hm c1e s _ hskip hns_emod
                  omega
                have hcongr : ceil_dt c1e
                    (ceil_dt be s config.meeting_length_minutes)
                    config.meeting_length_minutes =
                    ceil_dt c1e s config.meeting_length_minutes :=
                  ceil_dt_congr c1e _ s hns_emod
                by_cases hnsc1 : c1s ≤ ceil_dt be s config.meeting_length_minutes
                · rw [combine_clip_drop hnoskip hA hnsc1 hC (by rw [hcongr]; omega),
                    combine_nil_free,
                    if_neg (by omega : ¬ceil_dt be s config.meeting_length_minutes < c1s)]
                · rw [combine_mid_drop hnoskip hA (by omega) hC (by rw [hcongr]; omega),
                    combine_nil_free, if_pos (by omega)]
              · rw [if_neg hns, if_neg (by omega : ¬ceil_dt be s config.meeting_length_minutes < c1s)]
            rw [hX, hRHS]
            by_cases hlen : config.meeting_length_minutes ≤ (c1s - s).fdiv 60
            · rw [emit_pos hlen]
              by_cases hbec1 : c1s ≤ be
              · rw [combine_cover (by omega) (by omega) hbs hbec1, combine_nil_free,
                  if_neg (by omega : ¬ceil_dt be s config.meeting_length_minutes < c1s)]
              · by_cases hnsc1 : ceil_dt be s config.meeting_length_minutes < c1s
                · rw [combine_clip_mut (by omega) (by omega) hbs hbec1 hnsc1,
                    combine_nil_busy, combine_nil_free, if_pos hnsc1]
                · rw [combine_clip_drop (by omega) (by omega) hbs hbec1 hnsc1,
                    combine_nil_free, if_neg hnsc1]
            · rw [emit_neg hlen, combine_nil_free]
              by_cases hnsc1 : ceil_dt be s config.meeting_length_minutes < c1s
              · rw [if_pos hnsc1,
                  emit_neg
                    (by
                      have h6 : (c1s - ceil_dt be s config.meeting_length_minutes).fdiv 60 ≤
                          (c1s - s).fdiv 60 := fdiv60_mono (by omega)
                      simp only
                      omega)]
              · rw [if_neg hnsc1]

/-- Hoisting an early busy interval lying strictly inside the free interval
over a later busy list: subtracting the later intervals `B1` and then cutting
by `(bs, be)` equals emitting `[s, bs)`, clipping the start to
`ceil_dt be s m` and subtracting `B1`.  Requires every interval of `B1` to
start at or after `be`. -/
lemma combine_outer_clip_mid (config : Config)
    (hm : 1 ≤ config.meeting_length_minutes) {s e bs be : ℤ} :
    ∀ B1 : List TimeRange,
    SortedDisjoint B1 → ValidRanges B1 →
    ¬bs ≤ s → bs ≤ be → ¬e ≤ bs → ¬e ≤ be → (∀ c ∈ B1, be ≤ c.1) →
    combine_ranges config (combine_ranges config [(s, e)] B1) [(bs, be)] =
      emit config.meeting_length_minutes (s, bs)
        (if ceil_dt be s config.meeting_length_minutes < e then
          combine_ranges config
            [(ceil_dt be s config.meeting_length_minutes, e)] B1
        else []) := by
  intro B1 hchain hvalid hbs hbsbe hbse hbe2 hb1
  have hns_ge : be ≤ ceil_dt be s config.meeting_length_minutes := ceil_dt_ge hm be s
  have hns_emod := ceil_dt_emod be s config.meeting_length_minutes
  cases B1 with
  | nil =>
      rw [combine_nil_busy, combine_nil_free]
      by_cases hlen : config.meeting_length_minutes ≤ (e - s).fdiv 60
      · rw [emit_pos hlen]
        by_cases hns : ceil_dt be s config.meeting_length_minutes < e
        · rw [combine_mid_mut (by omega) hbse hbs hbe2 hns, if_pos hns]
        · rw [combine_mid_drop (by omega) hbse hbs hbe2 hns, combine_nil_free,
            if_neg hns]
      · rw [emit_neg hlen, combine_nil_free,
          emit_neg
            (by
              have h6 : (bs - s).fdiv 60 ≤ (e - s).fdiv 60 := fdiv60_mono (by omega)
              simp only
              omega)]
        by_cases hns : ceil_dt be s config.meeting_length_minutes < e
        · rw [if_pos hns,
            combine_single_short config hm
              (by
                have h6 : (e - ceil_dt be s config.meeting_length_minutes).fdiv 60 ≤
                    (e - s).fdiv 60 := fdiv60_mono (by omega)
                omega) []]
        · rw [if_neg hns]
  | cons c B1' =>
      obtain ⟨c1s, c1e⟩ := c
      have hbc : be ≤ c1s := hb1 (c1s, c1e) (List.mem_cons_self _ _)
      have hc1v : c1s ≤ c1e := hvalid _ (List.mem_cons_self _ _)
      have hc1B : ∀ x ∈ B1', c1e ≤ x.1 := sortedDisjoint_cons_head hchain
      by_cases hA : e ≤ c1s
      · have hX : combine_ranges config [(s, e)] ((c1s, c1e) :: B1') =
            emit config.meeting_length_minutes (s, e) [] := by
          rw [combine_whole (by omega) hA, combine_nil_free]
        rw [hX]
        have hW : (if ceil_dt be s config.meeting_length_minutes < e then
              combine_ranges config
                [(ceil_dt be s config.meeting_length_minutes, e)] ((c1s, c1e) :: B1')
            else []) =
            if ceil_dt be s config.meeting_length_minutes < e then
              emit config.meeting_length_minutes
                (ceil_dt be s config.meeting_length_minutes, e) []
            else [] := by
          by_cases hns : ceil_dt be s config.meeting_length_minutes < e
          · rw [if_pos hns, if_pos hns, combine_whole (by omega) hA, combine_nil_free]
          · rw [if_neg hns, if_neg hns]
        rw [hW]
        by_cases hlen : config.meeting_length_minutes ≤ (e - s).fdiv 60
        · rw [emit_pos hlen]
          by_cases hns : ceil_dt be s config.meeting_length_minutes < e
          · rw [combine_mid_mut (by omega) hbse hbs hbe2 hns, combine_nil_busy,
              combine_nil_free, if_pos hns]
          · rw [combine_mid_drop (by omega) hbse hbs hbe2 hns, combine_nil_free,
              if_neg hns]
        · rw [emit_neg hlen, combine_nil_free,
            emit_neg
              (by
                have h6 : (bs - s).fdiv 60 ≤ (e - s).fdiv 60 := fdiv60_mono (by omega)
                simp only
                omega)]
          by_cases hns : ceil_dt be s config.meeting_length_minutes < e
          · rw [if_pos hns,
              emit_neg
                (by
                  have h6 : (e - ceil_dt be s config.meeting_length_minutes).fdiv 60 ≤
                      (e - s).fdiv 60 := fdiv60_mono (by omega)
                  simp only
                  omega)]
          · rw [if_neg hns]
      · by_cases hC : e ≤ c1e
        · have hX : combine_ranges config [(s, e)] ((c1s, c1e) :: B1') =
              emit config.meeting_length_minutes (s, c1s) [] := by
            rw [combine_tail (by omega) hA (by omega) hC, combine_nil_free]
          rw [hX]
          have hW : (if ceil_dt be s config.meeting_length_minutes < e then
                combine_ranges config
                  [(ceil_dt be s config.meeting_length_minutes, e)] ((c1s, c1e) :: B1')
              else []) =
              if ceil_dt be s config.meeting_length_minutes < c1s then
                emit config.meeting_length_minutes
                  (ceil_dt be s config.meeting_length_minutes, c1s) []
              else [] := by
            by_cases hns : ceil_dt be s config.meeting_length_minutes < e
            · rw [if_pos hns]
              by_cases hnsc1 : ceil_dt be s config.meeting_length_minutes < c1s
              · rw [if_pos hnsc1,
                  combine_tail (by omega) hA (by omega) hC, combine_nil_free]
              · rw [if_neg hnsc1,
                  combine_cover (by omega) hA (by omega) hC, combine_nil_free]
            · rw [if_neg hns, if_neg (by omega : ¬ceil_dt be s config.meeting_length_minutes < c1s)]
          rw [hW]
          by_cases hlen : config.meeting_length_minutes ≤ (c1s - s).fdiv 60
          · rw [emit_pos hlen]
            by_cases hbsc1 : c1s ≤ bs
            · have hbseq : bs = c1s := by omega
              subst hbseq
              rw [combine_whole (by omega) (le_refl bs), combine_nil_free,
                if_neg (by omega : ¬ceil_dt be s config.meeting_length_minutes < bs)]
            · by_cases hbec1 : c1s ≤ be
              · rw [combine_tail (by omega) (by omega) hbs hbec1, combine_nil_free,
                  if_neg (by omega : ¬ceil_dt be s config.meeting_length_minutes < c1s)]
              · by_cases hnsc1 : ceil_dt be s config.meeting_length_minutes < c1s
                · rw [combine_mid_mut (by omega) (by omega) hbs hbec1 hnsc1,
                    combine_nil_busy, combine_nil_free, if_pos hnsc1]
                · rw [combine_mid_drop (by omega) (by omega) hbs hbec1 hnsc1,
                    combine_nil_free, if_neg hnsc1]
          · rw [emit_neg hlen, combine_nil_free,
              emit_neg
                (by
                  have h6 : (bs - s).fdiv 60 ≤ (c1s - s).fdiv 60 := fdiv60_mono (by omega)
                  simp only
                  omega)]
            by_cases hnsc1 : ceil_dt be s config.meeting_length_minutes < c1s
            · rw [if_pos hnsc1,
                emit_neg
                  (by
                    have h6 : (c1s - ceil_dt be s config.meeting_length_minutes).fdiv 60 ≤
                        (c1s - s).fdiv 60 := fdiv60_mono (by omega)
                    simp only
                    omega)]
            · rw [if_neg hnsc1]
        · have hnsc_ge : c1e ≤ ceil_dt c1e s config.meeting_length_minutes :=
            ceil_dt_ge hm c1e s
          have hnsc_emod := ceil_dt_emod c1e s config.meeting_length_minutes
          have hns_le_nsc : ceil_dt be s config.meeting_length_minutes ≤
              ceil_dt c1e s config.meeting_length_minutes :=
            ceil_dt_min hm be s _ (by omega) hnsc_emod
          by_cases hG : ceil_dt c1e s config.meeting_length_minutes < e
          · have hX : combine_ranges config [(s, e)] ((c1s, c1e) :: B1') =
                emit config.meeting_length_minutes (s, c1s)
                  (combine_ranges config
                    [(ceil_dt c1e s config.meeting_length_minutes, e)] B1') := by
              rw [combine_mid_mut (by omega) hA (by omega) hC hG]
            have hZstart : ∀ z ∈ combine_ranges config
                [(ceil_dt c1e s config.meeting_length_minutes, e)] B1',
                ceil_dt c1e s config.meeting_length_minutes ≤ z.1 := by
              refine combine_start_mono config hm _ _ B1' ?_
              intro f hf
              rcases List.mem_cons.mp hf with hEq | hf'
              · subst hEq; exact le_refl _
              · exact absurd hf' (List.not_mem_nil f)
            have hZskip : combine_ranges config
                (combine_ranges config
                  [(ceil_dt c1e s config.meeting_length_minutes, e)] B1') [(bs, be)] =
                combine_ranges config
                  [(ceil_dt c1e s config.meeting_length_minutes, e)] B1' :=
              combine_output_skip config (fun r hr => by
                have h6 := hZstart r hr
                omega)
            have hZnil : combine_ranges config
                (combine_ranges config
                  [(ceil_dt c1e s config.meeting_length_minutes, e)] B1') [] =
                combine_ranges config
                  [(ceil_dt c1e s config.meeting_length_minutes, e)] B1' :=
              combine_idem_nil config _ _
            have hW : (if ceil_dt be s config.meeting_length_minutes < e then
                  combine_ranges config
                    [(ceil_dt be s config.meeting_length_minutes, e)] ((c1s, c1e) :: B1')
                else []) =
                if ceil_dt be s config.meeting_length_minutes < c1s then
                  emit config.meeting_length_minutes
                    (ceil_dt be s config.meeting_length_minutes, c1s)
                    (combine_ranges config
                      [(ceil_dt c1e s config.meeting_length_minutes, e)] B1')
                else
                  combine_ranges config
                    [(ceil_dt c1e s config.meeting_length_minutes, e)] B1' := by
              by_cases hns : ceil_dt be s config.meeting_length_minutes < e
              · rw [if_pos hns]
                by_cases hskip : c1e ≤ ceil_dt be s config.meeting_length_minutes
                · have hnsceq : ceil_dt c1e s config.meeting_length_minutes =
                      ceil_dt be s config.meeting_length_minutes :=
                    le_antisymm (ceil_dt_min hm c1e s _ hskip hns_emod) hns_le_nsc
                  rw [combine_skip hskip,
                    if_neg (by omega : ¬ceil_dt be s config.meeting_length_minutes < c1s),
                    hnsceq]
                · have hcongr : ceil_dt c1e
                      (ceil_dt be s config.meeting_length_minutes)
                      config.meeting_length_minutes =
                      ceil_dt c1e s config.meeting_length_minutes :=
                    ceil_dt_congr c1e _ s hns_emod
                  by_cases hnsc1 : c1s ≤ ceil_dt be s config.meeting_length_minutes
                  · rw [combine_clip_mut (by omega) hA hnsc1 hC (by rw [hcongr]; exact hG),
                      hcongr,
                      if_neg (by omega : ¬ceil_dt be s config.meeting_length_minutes < c1s)]
                  · rw [combine_mid_mut (by omega) hA (by omega) hC (by rw [hcongr]; exact hG),
                      hcongr, if_pos (by omega)]
              · rw [if_neg hns]
                omega
            rw [hX, hW]
            by_cases hlen : config.meeting_length_minutes ≤ (c1s - s).fdiv 60
            · rw [emit_pos hlen]
              by_cases hbsc1 : c1s ≤ bs
              · have hbseq : bs = c1s := by omega
                subst hbseq
                rw [combine_whole (by omega) (le_refl bs),
                  combine_skip_one config (fun r hr => by
                    have h6 := hZstart r hr
                    omega),
                  combine_idem_nil,
                  if_neg (by omega : ¬ceil_dt be s config.meeting_length_minutes < bs)]
              · by_cases hbec1 : c1s ≤ be
                · rw [combine_tail (by omega) (by omega) hbs hbec1, hZskip,
                    if_neg (by omega : ¬ceil_dt be s config.meeting_length_minutes < c1s)]
                · by_cases hnsc1 : ceil_dt be s config.meeting_length_minutes < c1s
                  · rw [combine_mid_mut (by omega) (by omega) hbs hbec1 hnsc1,
                      combine_nil_busy, hZnil, if_pos hnsc1]
                  · rw [combine_mid_drop (by omega) (by omega) hbs hbec1 hnsc1,
                      hZnil, if_neg hnsc1]
            · rw [emit_neg hlen, hZskip,
                emit_neg
                  (by
                    have h6 : (bs - s).fdiv 60 ≤ (c1s - s).fdiv 60 := fdiv60_mono (by omega)
                    simp only
                    omega)]
              by_cases hnsc1 : ceil_dt be s config.meeting_length_minutes < c1s
              · rw [if_pos hnsc1,
                  emit_neg
                    (by
                      have h6 : (c1s - ceil_dt be s config.meeting_length_minutes).fdiv 60 ≤
                          (c1s - s).fdiv 60 := fdiv60_mono (by omega)
                      simp only
                      omega)]
              · rw [if_neg hnsc1]
          · have hX : combine_ranges config [(s, e)] ((c1s, c1e) :: B1') =
                emit config.meeting_length_minutes (s, c1s) [] := by
              rw [combine_mid_drop (by omega) hA (by omega) hC hG, combine_nil_free]
            have hW : (if ceil_dt be s config.meeting_length_minutes < e then
                  combine_ranges config
                    [(ceil_dt be s config.meeting_length_minutes, e)] ((c1s, c1e) :: B1')
                else []) =
                if ceil_dt be s config.meeting_length_minutes < c1s then
                  emit config.meeting_length_minutes
                    (ceil_dt be s config.meeting_length_minutes, c1s) []
                else [] := by
              by_cases hns : ceil_dt be s config.meeting_length_minutes < e
              · rw [if_pos hns]
                have hnoskip : ¬c1e ≤ ceil_dt be s config.meeting_length_minutes := by
                  intro hskip
                  have h6 : ceil_dt c1e s config.meeting_length_minutes ≤
                      ceil_dt be s config.meeting_length_minutes :=
                    ceil_dt_min hm c1e s _ hskip hns_emod
                  omega
                have hcongr : ceil_dt c1e
                    (ceil_dt be s config.meeting_length_minutes)
                    config.meeting_length_minutes =
                    ceil_dt c1e s config.meeting_length_minutes :=
                  ceil_dt_congr c1e _ s hns_emod
                by_cases hnsc1 : c1s ≤ ceil_dt be s config.meeting_length_minutes
                · rw [combine_clip_drop hnoskip hA hnsc1 hC (by rw [hcongr]; omega),
                    combine_nil_free,
                    if_neg (by omega : ¬ceil_dt be s config.meeting_length_minutes < c1s)]
                · rw [combine_mid_drop hnoskip hA (by omega) hC (by rw [hcongr]; omega),
                    combine_nil_free, if_pos (by omega)]
              · rw [if_neg hns, if_neg (by omega : ¬ceil_dt be s config.meeting_length_minutes < c1s)]
            rw [hX, hW]
            by_cases hlen : config.meeting_length_minutes ≤ (c1s - s).fdiv 60
            · rw [emit_pos hlen]
              by_cases hbsc1 : c1s ≤ bs
              · have hbseq : bs = c1s := by omega
                subst hbseq
                rw [combine_whole (by omega) (le_refl bs), combine_nil_free,
                  if_neg (by omega : ¬ceil_dt be s config.meeting_length_minutes < bs)]
              · by_cases hbec1 : c1s ≤ be
                · rw [combine_tail (by omega) (by omega) hbs hbec1, combine_nil_free,
                    if_neg (by omega : ¬ceil_dt be s config.meeting_length_minutes < c1s)]
                · by_cases hnsc1 : ceil_dt be s config.meeting_length_minutes < c1s
                  · rw [combine_mid_mut (by omega) (by omega) hbs hbec1 hnsc1,
                      combine_nil_busy, combine_nil_free, if_pos hnsc1]
                  · rw [combine_mid_drop (by omega) (by omega) hbs hbec1 hnsc1,
                      combine_nil_free, if_neg hnsc1]
            · rw [emit_neg hlen, combine_nil_free,
                emit_neg
                  (by
                    have h6 : (bs - s).fdiv 60 ≤ (c1s - s).fdiv 60 := fdiv60_mono (by omega)
                    simp only
                    omega)]
              by_cases hnsc1 : ceil_dt be s config.meeting_length_minutes < c1s
              · rw [if_pos hnsc1,
                  emit_neg
                    (by
                      have h6 : (c1s - ceil_dt be s config.meeting_length_minutes).fdiv 60 ≤
                          (c1s - s).fdiv 60 := fdiv60_mono (by omega)
                      simp only
                      omega)]
              · rw [if_neg hnsc1]

/-- Merge of two busy lists into one list ordered by start (standard
two-list merge); this is the "union of busy-list-1 and busy-list-2 merged
into one sorted list" of the chaining property. -/
def mergeBusy : List TimeRange → List TimeRange → List TimeRange
  | [], l2 => l2
  | l1, [] => l1
  | a :: l1, b :: l2 =>
      if a.1 ≤ b.1 then a :: mergeBusy l1 (b :: l2)
      else b :: mergeBusy (a :: l1) l2
  termination_by l1 l2 => l1.length + l2.length

lemma mergeBusy_nil_left {l : List TimeRange} : mergeBusy [] l = l := by
  rw [mergeBusy]

lemma mergeBusy_nil_right {l : List TimeRange} : mergeBusy l [] = l := by
  cases l with
  | nil => rw [mergeBusy]
  | cons a l => rw [mergeBusy]; exact fun h => List.noConfusion h

lemma mergeBusy_cons_left {a b : TimeRange} {l1 l2 : List TimeRange}
    (h : a.1 ≤ b.1) :
    mergeBusy (a :: l1) (b :: l2) = a :: mergeBusy l1 (b :: l2) := by
  rw [mergeBusy]
  simp [h]

lemma mergeBusy_cons_right {a b : TimeRange} {l1 l2 : List TimeRange}
    (h : ¬a.1 ≤ b.1) :
    mergeBusy (a :: l1) (b :: l2) = b :: mergeBusy (a :: l1) l2 := by
  rw [mergeBusy]
  simp [h]

lemma mem_mergeBusy {x : TimeRange} : ∀ {l1 l2 : List TimeRange},
    x ∈ mergeBusy l1 l2 ↔ x ∈ l1 ∨ x ∈ l2 := by
  intro l1 l2
  induction l1, l2 using mergeBusy.induct with
  | case1 l2 => rw [mergeBusy_nil_left]; simp
  | case2 l1 => rw [mergeBusy_nil_right]; simp
  | case3 a l1 b l2 h ih =>
      rw [mergeBusy_cons_left h]
      simp only [List.mem_cons, ih, List.mem_cons]
      tauto
  | case4 a l1 b l2 h ih =>
      rw [mergeBusy_cons_right h]
      simp only [List.mem_cons, ih, List.mem_cons]
      tauto

lemma mergeBusy_length : ∀ l1 l2 : List TimeRange,
    (mergeBusy l1 l2).length = l1.length + l2.length := by
  intro l1 l2
  induction l1, l2 using mergeBusy.induct with
  | case1 l2 => rw [mergeBusy_nil_left]; simp
  | case2 l1 => rw [mergeBusy_nil_right]; simp
  | case3 a l1 b l2 h ih =>
      rw [mergeBusy_cons_left h]
      simp only [List.length_cons, ih]
      omega
  | case4 a l1 b l2 h ih =>
      rw [mergeBusy_cons_right h]
      simp only [List.length_cons, ih]
      omega

lemma validRanges_singleton {r : TimeRange} (h : r.1 ≤ r.2) : ValidRanges [r] := by
  intro x hx
  rcases List.mem_cons.mp hx with hEq | hx'
  · subst hEq; exact h
  · exact absurd hx' (List.not_mem_nil x)

lemma combine_single_start_lb (config : Config)
    (hm : 1 ≤ config.meeting_length_minutes) {s e : ℤ} (busy : List TimeRange) :
    ∀ r ∈ combine_ranges config [(s, e)] busy, s ≤ r.1 := by
  refine combine_start_mono config hm s [(s, e)] busy ?_
  intro f hf
  rcases List.mem_cons.mp hf with hEq | hf'
  · subst hEq; exact le_refl _
  · exact absurd hf' (List.not_mem_nil f)

/-- One free interval, two busy lists: subtracting `B1` and then `B2` is
subtracting their merge, provided both lists and the merge are sorted and
non-overlapping. -/
lemma combine_core (config : Config) (hm : 1 ≤ config.meeting_length_minutes) :
    ∀ n : ℕ, ∀ B1 B2 : List TimeRange, ∀ s e : ℤ,
    B1.length + B2.length ≤ n → s ≤ e →
    SortedDisjoint B1 → ValidRanges B1 → SortedDisjoint B2 → ValidRanges B2 →
    SortedDisjoint (mergeBusy B1 B2) →
    combine_ranges config (combine_ranges config [(s, e)] B1) B2 =
      combine_ranges config [(s, e)] (mergeBusy B1 B2) := by
  intro n
  induction n with
  | zero =>
      intro B1 B2 s e hn _ _ _ _ _ _
      cases B2 with
      | nil => rw [mergeBusy_nil_right, combine_idem_nil]
      | cons b2 B2' => simp at hn
  | succ n ih =>
      intro B1 B2 s e hn hse hc1 hv1 hc2 hv2 hcm
      cases B2 with
      | nil => rw [mergeBusy_nil_right, combine_idem_nil]
      | cons b2 B2' =>
          obtain ⟨c1, c2⟩ := b2
          have hc12 : c1 ≤ c2 := hv2 _ (List.mem_cons_self _ _)
          have hB2'h : ∀ x ∈ B2', c2 ≤ x.1 := sortedDisjoint_cons_head hc2
          cases B1 with
          | nil =>
              rw [mergeBusy_nil_left] at hcm ⊢
              rw [combine_nil_busy, combine_nil_free]
              by_cases hlen : config.meeting_length_minutes ≤ (e - s).fdiv 60
              · rw [emit_pos hlen]
              · rw [emit_neg hlen, combine_nil_free,
                  combine_single_short config hm (by omega) _]
          | cons b1 B1' =>
              obtain ⟨a1, a2⟩ := b1
              have ha12 : a1 ≤ a2 := hv1 _ (List.mem_cons_self _ _)
              have hB1'h : ∀ x ∈ B1', a2 ≤ x.1 := sortedDisjoint_cons_head hc1
              simp only [List.length_cons] at hn
              by_cases hb12 : a1 ≤ c1
              · -- the first-busy-list head comes first in the merge
                rw [mergeBusy_cons_left hb12] at hcm ⊢
                have hMtail : SortedDisjoint (mergeBusy B1' ((c1, c2) :: B2')) :=
                  sortedDisjoint_cons_tail hcm
                have hB2a2 : ∀ b ∈ (c1, c2) :: B2', a2 ≤ b.1 := fun b hb =>
                  sortedDisjoint_cons_head hcm b (mem_mergeBusy.mpr (Or.inr hb))
                by_cases hS1 : a2 ≤ s
                · rw [combine_skip hS1, combine_skip hS1]
                  exact ih B1' ((c1, c2) :: B2') s e (by simp; omega) hse
                    (sortedDisjoint_cons_tail hc1) (validRanges_cons_tail hv1)
                    hc2 hv2 hMtail
                · by_cases hS2 : e ≤ a1
                  · have hX : combine_ranges config [(s, e)] ((a1, a2) :: B1') =
                        emit config.meeting_length_minutes (s, e) [] := by
                      rw [combine_whole hS1 hS2, combine_nil_free]
                    have hY : combine_ranges config [(s, e)]
                        ((a1, a2) :: mergeBusy B1' ((c1, c2) :: B2')) =
                        emit config.meeting_length_minutes (s, e) [] := by
                      rw [combine_whole hS1 hS2, combine_nil_free]
                    rw [hX, hY,
                      combine_emit_all_after config (fun b hb => by
                        have h6 := hB2a2 b hb
                        omega)]
                  · by_cases hS3 : a1 ≤ s
                    · by_cases hS3c : e ≤ a2
                      · rw [combine_cover hS1 hS2 hS3 hS3c, combine_nil_free,
                          combine_nil_free, combine_cover hS1 hS2 hS3 hS3c,
                          combine_nil_free]
                      · by_cases hS3m : ceil_dt a2 s config.meeting_length_minutes < e
                        · rw [combine_clip_mut hS1 hS2 hS3 hS3c hS3m,
                            combine_clip_mut hS1 hS2 hS3 hS3c hS3m]
                          exact ih B1' ((c1, c2) :: B2') _ e (by simp; omega)
                            (le_of_lt hS3m)
                            (sortedDisjoint_cons_tail hc1) (validRanges_cons_tail hv1)
                            hc2 hv2 hMtail
                        · rw [combine_clip_drop hS1 hS2 hS3 hS3c hS3m, combine_nil_free,
                            combine_nil_free, combine_clip_drop hS1 hS2 hS3 hS3c hS3m,
                            combine_nil_free]
                    · by_cases hS4 : e ≤ a2
                      · have hX : combine_ranges config [(s, e)] ((a1, a2) :: B1') =
                            emit config.meeting_length_minutes (s, a1) [] := by
                          rw [combine_tail hS1 hS2 hS3 hS4, combine_nil_free]
                        have hY : combine_ranges config [(s, e)]
                            ((a1, a2) :: mergeBusy B1' ((c1, c2) :: B2')) =
                            emit config.meeting_length_minutes (s, a1) [] := by
                          rw [combine_tail hS1 hS2 hS3 hS4, combine_nil_free]
                        rw [hX, hY,
                          combine_emit_all_after config (fun b hb => by
                            have h6 := hB2a2 b hb
                            omega)]
                      · have hzv : ValidRanges
                            [(ceil_dt a2 s config.meeting_length_minutes, e)] → True :=
                          fun _ => trivial
                        by_cases hS5 : ceil_dt a2 s config.meeting_length_minutes < e
                        · rw [combine_mid_mut hS1 hS2 hS3 hS4 hS5,
                            combine_mid_mut hS1 hS2 hS3 hS4 hS5]
                          have hZ := ih B1' ((c1, c2) :: B2')
                            (ceil_dt a2 s config.meeting_length_minutes) e
                            (by simp; omega) (le_of_lt hS5)
                            (sortedDisjoint_cons_tail hc1) (validRanges_cons_tail hv1)
                            hc2 hv2 hMtail
                          have hns_ge : a2 ≤ ceil_dt a2 s config.meeting_length_minutes :=
                            ceil_dt_ge hm a2 s
                          have hZstart : ∀ z ∈ combine_ranges config
                              [(ceil_dt a2 s config.meeting_length_minutes, e)] B1',
                              ceil_dt a2 s config.meeting_length_minutes ≤ z.1 :=
                            combine_single_start_lb config hm B1'
                          have hZchain : SortedDisjoint (combine_ranges config
                              [(ceil_dt a2 s config.meeting_length_minutes, e)] B1') :=
                            (combine_main config hm _ B1'
                              (List.pairwise_singleton _ _)
                              (validRanges_singleton (by simp only; omega))
                              (sortedDisjoint_cons_tail hc1)
                              (validRanges_cons_tail hv1)).1
                          have hvalids : ValidRanges ((s, a1) :: combine_ranges config
                              [(ceil_dt a2 s config.meeting_length_minutes, e)] B1') :=
                            validRanges_cons (by simp only; omega)
                              (combine_output_valid config hm _ _)
                          have hchains : SortedDisjoint ((s, a1) :: combine_ranges config
                              [(ceil_dt a2 s config.meeting_length_minutes, e)] B1') :=
                            List.pairwise_cons.mpr
                              ⟨fun z hz => by
                                have h6 := hZstart z hz
                                simp only
                                omega, hZchain⟩
                          by_cases hlen : config.meeting_length_minutes ≤
                              (a1 - s).fdiv 60
                          · rw [emit_pos hlen, emit_pos hlen,
                              combine_decomp config _ ((c1, c2) :: B2') hvalids hchains
                                (s, a1) _ rfl,
                              combine_all_after config ((c1, c2) :: B2')
                                (fun b hb => by
                                  have h6 := hB2a2 b hb
                                  omega),
                              emit_pos hlen, hZ, List.singleton_append]
                          · rw [emit_neg hlen, emit_neg hlen, hZ]
                        · rw [combine_mid_drop hS1 hS2 hS3 hS4 hS5, combine_nil_free,
                            combine_mid_drop hS1 hS2 hS3 hS4 hS5, combine_nil_free,
                            combine_emit_all_after config (fun b hb => by
                              have h6 := hB2a2 b hb
                              omega)]
              · -- the second-busy-list head comes first in the merge
                rw [mergeBusy_cons_right hb12] at hcm ⊢
                have hMtail : SortedDisjoint (mergeBusy ((a1, a2) :: B1') B2') :=
                  sortedDisjoint_cons_tail hcm
                have hB1c2 : ∀ c ∈ (a1, a2) :: B1', c2 ≤ c.1 := fun c hc =>
                  sortedDisjoint_cons_head hcm c (mem_mergeBusy.mpr (Or.inl hc))
                have hY0chain : SortedDisjoint
                    (combine_ranges config [(s, e)] ((a1, a2) :: B1')) :=
                  (combine_main config hm [(s, e)] ((a1, a2) :: B1')
                    (List.pairwise_singleton _ _) (validRanges_singleton hse)
                    hc1 hv1).1
                have hY0valid : ValidRanges
                    (combine_ranges config [(s, e)] ((a1, a2) :: B1')) :=
                  combine_output_valid config hm _ _
                by_cases hT1 : c2 ≤ s
                · rw [combine_skip hT1,
                    combine_skip_one config (fun y hy => by
                      have h6 := combine_single_start_lb config hm
                        ((a1, a2) :: B1') y hy
                      omega)]
                  exact ih ((a1, a2) :: B1') B2' s e (by simp; omega) hse
                    hc1 hv1 (sortedDisjoint_cons_tail hc2) (validRanges_cons_tail hv2)
                    hMtail
                · by_cases hT2 : e ≤ c1
                  · have hB1e : ∀ c ∈ (a1, a2) :: B1', e ≤ c.1 := fun c hc => by
                      have h6 := hB1c2 c hc
                      omega
                    rw [combine_all_after config _ hB1e, combine_whole hT1 hT2,
                      combine_nil_free,
                      combine_emit_all_after config (fun b hb => by
                        rcases List.mem_cons.mp hb with hEq | hb'
                        · subst hEq; exact hT2
                        · have h6 := hB2'h b hb'
                          omega)]
                  · by_cases hT3 : c1 ≤ s
                    · by_cases hT3c : e ≤ c2
                      · have hB1e : ∀ c ∈ (a1, a2) :: B1', e ≤ c.1 := fun c hc => by
                          have h6 := hB1c2 c hc
                          omega
                        rw [combine_all_after config _ hB1e,
                          combine_cover hT1 hT2 hT3 hT3c, combine_nil_free]
                        by_cases hlen : config.meeting_length_minutes ≤
                            (e - s).fdiv 60
                        · rw [emit_pos hlen, combine_cover hT1 hT2 hT3 hT3c,
                            combine_nil_free]
                        · rw [emit_neg hlen, combine_nil_free]
                      · have hbs := combine_busy_split config hm
                          (combine_ranges config [(s, e)] ((a1, a2) :: B1')) B2'
                          (c1, c2) hY0valid hY0chain hc12 hB2'h
                        rw [hbs,
                          combine_outer_clip_left config hm ((a1, a2) :: B1')
                            hc1 hv1 hT3 hT1 hT3c hB1c2]
                        by_cases hns2 : ceil_dt c2 s config.meeting_length_minutes < e
                        · rw [if_pos hns2, combine_clip_mut hT1 hT2 hT3 hT3c hns2]
                          exact ih ((a1, a2) :: B1') B2' _ e (by simp; omega)
                            (le_of_lt hns2) hc1 hv1
                            (sortedDisjoint_cons_tail hc2) (validRanges_cons_tail hv2)
                            hMtail
                        · rw [if_neg hns2, combine_nil_free,
                            combine_clip_drop hT1 hT2 hT3 hT3c hns2, combine_nil_free]
                    · by_cases hT4 : e ≤ c2
                      · have hB1e : ∀ c ∈ (a1, a2) :: B1', e ≤ c.1 := fun c hc => by
                          have h6 := hB1c2 c hc
                          omega
                        rw [combine_all_after config _ hB1e,
                          combine_tail hT1 hT2 hT3 hT4, combine_nil_free]
                        by_cases hlen : config.meeting_length_minutes ≤
                            (e - s).fdiv 60
                        · rw [emit_pos hlen, combine_tail hT1 hT2 hT3 hT4,
                            combine_nil_free]
                        · rw [emit_neg hlen, combine_nil_free,
                            emit_neg (by
                              have h6 : (c1 - s).fdiv 60 ≤ (e - s).fdiv 60 :=
                                fdiv60_mono (by omega)
                              simp only at hlen ⊢
                              omega)]
                      · have hbs := combine_busy_split config hm
                          (combine_ranges config [(s, e)] ((a1, a2) :: B1')) B2'
                          (c1, c2) hY0valid hY0chain hc12 hB2'h
                        rw [hbs,
                          combine_outer_clip_mid config hm ((a1, a2) :: B1')
                            hc1 hv1 hT3 hc12 hT2 hT4 hB1c2]
                        have hns_ge : c2 ≤ ceil_dt c2 s config.meeting_length_minutes :=
                          ceil_dt_ge hm c2 s
                        by_cases hns2 : ceil_dt c2 s config.meeting_length_minutes < e
                        · rw [if_pos hns2, combine_mid_mut hT1 hT2 hT3 hT4 hns2]
                          have hZ := ih ((a1, a2) :: B1') B2'
                            (ceil_dt c2 s config.meeting_length_minutes) e
                            (by simp; omega) (le_of_lt hns2) hc1 hv1
                            (sortedDisjoint_cons_tail hc2) (validRanges_cons_tail hv2)
                            hMtail
                          have hZstart : ∀ z ∈ combine_ranges config
                              [(ceil_dt c2 s config.meeting_length_minutes, e)]
                              ((a1, a2) :: B1'),
                              ceil_dt c2 s config.meeting_length_minutes ≤ z.1 :=
                            combine_single_start_lb config hm _
                          have hZchain : SortedDisjoint (combine_ranges config
                              [(ceil_dt c2 s config.meeting_length_minutes, e)]
                              ((a1, a2) :: B1')) :=
                            (combine_main config hm _ ((a1, a2) :: B1')
                              (List.pairwise_singleton _ _)
                              (validRanges_singleton (by simp only; omega))
                              hc1 hv1).1
                          have hvalids : ValidRanges ((s, c1) :: combine_ranges config
                              [(ceil_dt c2 s config.meeting_length_minutes, e)]
                              ((a1, a2) :: B1')) :=
                            validRanges_cons (by simp only; omega)
                              (combine_output_valid config hm _ _)
                          have hchains : SortedDisjoint ((s, c1) :: combine_ranges config
                              [(ceil_dt c2 s config.meeting_length_minutes, e)]
                              ((a1, a2) :: B1')) :=
                            List.pairwise_cons.mpr
                              ⟨fun z hz => by
                                have h6 := hZstart z hz
                                simp only
                                omega, hZchain⟩
                          by_cases hlen : config.meeting_length_minutes ≤
                              (c1 - s).fdiv 60
                          · rw [emit_pos hlen, emit_pos hlen,
                              combine_decomp config _ B2' hvalids hchains (s, c1) _ rfl,
                              combine_all_after config B2' (fun b hb => by
                                have h6 := hB2'h b hb
                                omega),
                              emit_pos hlen, hZ, List.singleton_append]
                          · rw [emit_neg hlen, emit_neg hlen, hZ]
                        · rw [if_neg hns2, combine_mid_drop hT1 hT2 hT3 hT4 hns2,
                            combine_nil_free,
                            combine_emit_all_after config (fun b hb => by
                              have h6 := hB2'h b hb
                              omega)]

/-- Chaining equivalence: reducing the free list against `B1` and then the
result against `B2` equals reducing against the merged busy list, when the
free list and both busy lists are sorted and non-overlapping and their merge
is non-overlapping as well. -/
lemma combine_chaining (config : Config)
    (hm : 1 ≤ config.meeting_length_minutes) : ∀ F B1 B2 : List TimeRange,
    SortedDisjoint F → ValidRanges F →
    SortedDisjoint B1 → ValidRanges B1 → SortedDisjoint B2 → ValidRanges B2 →
    SortedDisjoint (mergeBusy B1 B2) →
    combine_ranges config (combine_ranges config F B1) B2 =
      combine_ranges config F (mergeBusy B1 B2) := by
  intro F
  induction F with
  | nil =>
      intro B1 B2 _ _ _ _ _ _ _
      rw [combine_nil_free, combine_nil_free, combine_nil_free]
  | cons f F' ihF =>
      intro B1 B2 hcf hvf hc1 hv1 hc2 hv2 hcm
      obtain ⟨s, e⟩ := f
      have hse : s ≤ e := hvf _ (List.mem_cons_self _ _)
      have hchain1 : SortedDisjoint (combine_ranges config [(s, e)] B1) :=
        (combine_main config hm [(s, e)] B1 (List.pairwise_singleton _ _)
          (validRanges_singleton hse) hc1 hv1).1
      have hchain2 : SortedDisjoint (combine_ranges config F' B1) :=
        (combine_main config hm F' B1 (sortedDisjoint_cons_tail hcf)
          (validRanges_cons_tail hvf) hc1 hv1).1
      have hcross : ∀ a ∈ combine_ranges config [(s, e)] B1,
          ∀ b ∈ combine_ranges config F' B1, a.2 ≤ b.1 := by
        intro a ha b hb
        have ha2 : a.2 ≤ e := by
          refine combine_end_ub config e [(s, e)] B1 ?_ a ha
          intro f hf
          rcases List.mem_cons.mp hf with hEq | hf'
          · subst hEq; exact le_refl _
          · exact absurd hf' (List.not_mem_nil f)
        have hb1 : e ≤ b.1 :=
          combine_start_mono config hm e F' B1
            (sortedDisjoint_cons_head hcf) b hb
        omega
      rw [combine_decomp config ((s, e) :: F') B1 hvf hcf (s, e) F' rfl,
        combine_append config _ _ B2
          (validRanges_append (combine_output_valid config hm _ _)
            (combine_output_valid config hm _ _))
          (sortedDisjoint_append hchain1 hchain2 hcross),
        combine_core config hm (B1.length + B2.length) B1 B2 s e (le_refl _)
          hse hc1 hv1 hc2 hv2 hcm,
        ihF B1 B2 (sortedDisjoint_cons_tail hcf) (validRanges_cons_tail hvf)
          hc1 hv1 hc2 hv2 hcm,
        ← combine_decomp config ((s, e) :: F') (mergeBusy B1 B2) hvf hcf (s, e) F' rfl]

/-! ### Grouping facts for `print_ranges` -/

/-- Sorted by start timestamp. -/
def SortedByStart (l : List TimeRange) : Prop :=
  l.Pairwise (fun a b => a.1 ≤ b.1)

instance (l : List TimeRange) : Decidable (SortedByStart l) :=
  inferInstanceAs (Decidable (l.Pairwise _))

lemma groupGo_flatten (off : ℤ) : ∀ rs d cur,
    (groupGo off d cur rs).flatten = cur ++ rs := by
  intro rs
  induction rs with
  | nil => intro d cur; simp [groupGo]
  | cons r rs ih =>
      intro d cur
      rw [groupGo]
      split
      · rw [ih]
        simp
      · simp only [List.flatten_cons, ih]
        simp

lemma groupGo_clusters (off : ℤ) : ∀ rs d cur, cur ≠ [] →
    (∀ x ∈ cur, weekday off x.1 = d) →
    ∀ c ∈ groupGo off d cur rs,
      c ≠ [] ∧ ∀ x ∈ c, ∀ y ∈ c, weekday off x.1 = weekday off y.1 := by
  intro rs
  induction rs with
  | nil =>
      intro d cur hne hd c hc
      rw [groupGo] at hc
      rcases List.mem_cons.mp hc with hEq | hc'
      · subst hEq
        exact ⟨hne, fun x hx y hy => by rw [hd x hx, hd y hy]⟩
      · exact absurd hc' (List.not_mem_nil c)
  | cons r rs ih =>
      intro d cur hne hd c hc
      rw [groupGo] at hc
      split at hc
      · rename_i hday
        refine ih d (cur ++ [r]) (by simp) ?_ c hc
        intro x hx
        rcases List.mem_append.mp hx with hx' | hx'
        · exact hd x hx'
        · rcases List.mem_cons.mp hx' with hEq | hx''
          · subst hEq; exact hday
          · exact absurd hx'' (List.not_mem_nil x)
      · rcases List.mem_cons.mp hc with hEq | hc'
        · subst hEq
          exact ⟨hne, fun x hx y hy => by rw [hd x hx, hd y hy]⟩
        · exact ih (weekday off r.1) [r] (by simp)
            (by
              intro x hx
              rcases List.mem_cons.mp hx with hEq | hx'
              · subst hEq; rfl
              · exact absurd hx' (List.not_mem_nil x)) c hc'

lemma groupGo_head_day (off : ℤ) : ∀ rs d cur,
    (∀ x ∈ cur, weekday off x.1 = d) →
    ∀ c ∈ (groupGo off d cur rs).head?, ∀ x ∈ c, weekday off x.1 = d := by
  intro rs
  induction rs with
  | nil =>
      intro d cur hd c hc
      rw [groupGo] at hc
      simp only [List.head?_cons, Option.mem_some_iff] at hc
      subst hc
      exact hd
  | cons r rs ih =>
      intro d cur hd c hc
      rw [groupGo] at hc
      split at hc
      · rename_i hday
        refine ih d (cur ++ [r]) ?_ c hc
        intro x hx
        rcases List.mem_append.mp hx with hx' | hx'
        · exact hd x hx'
        · rcases List.mem_cons.mp hx' with hEq | hx''
          · subst hEq; exact hday
          · exact absurd hx'' (List.not_mem_nil x)
      · simp only [List.head?_cons, Option.mem_some_iff] at hc
        subst hc
        exact hd

lemma groupGo_chain (off : ℤ) : ∀ rs d cur, cur ≠ [] →
    (∀ x ∈ cur, weekday off x.1 = d) →
    List.Chain'
      (fun c c' => ∀ x ∈ c, ∀ y ∈ c', weekday off x.1 ≠ weekday off y.1)
      (groupGo off d cur rs) := by
  intro rs
  induction rs with
  | nil =>
      intro d cur _ _
      rw [groupGo]
      exact List.chain'_singleton _
  | cons r rs ih =>
      intro d cur hne hd
      rw [groupGo]
      split
      · rename_i hday
        refine ih d (cur ++ [r]) (by simp) ?_
        intro x hx
        rcases List.mem_append.mp hx with hx' | hx'
        · exact hd x hx'
        · rcases List.mem_cons.mp hx' with hEq | hx''
          · subst hEq; exact hday
          · exact absurd hx'' (List.not_mem_nil x)
      · rename_i hday
        have hsingleton : ∀ x ∈ [r], weekday off x.1 = weekday off r.1 := by
          intro x hx
          rcases List.mem_cons.mp hx with hEq | hx'
          · subst hEq; rfl
          · exact absurd hx' (List.not_mem_nil x)
        refine List.chain'_cons'.mpr ⟨?_, ih (weekday off r.1) [r] (by simp) hsingleton⟩
        intro c' hc' x hx y hy
        have hx' := hd x hx
        have hy' := groupGo_head_day off rs (weekday off r.1) [r] hsingleton c' hc' y hy
        rw [hx', hy']
        exact fun hcontra => hday hcontra.symm

/-- On raw windows with `start ≤ end` the floor-clipping loop never hits the
assertion: `end ≥ min_time` in the kept branch and clipping the start to
`min_time` keeps `start ≤ end`. -/
lemma prep_work_ranges_total (min_time : ℤ) : ∀ ws : List TimeRange,
    (∀ w ∈ ws, w.1 ≤ w.2) →
    ∃ out, prep_work_ranges min_time ws = some out ∧ ValidRanges out := by
  intro ws
  induction ws with
  | nil => intro _; exact ⟨[], rfl, validRanges_nil⟩
  | cons w ws ih =>
      intro h
      obtain ⟨s, e⟩ := w
      obtain ⟨out, hout, hvout⟩ := ih (fun w hw => h w (List.mem_cons_of_mem _ hw))
      have hse : s ≤ e := h (s, e) (List.mem_cons_self _ _)
      rw [prep_work_ranges]
      by_cases h1 : e < min_time
      · rw [if_pos h1]
        exact ⟨out, hout, hvout⟩
      · rw [if_neg h1]
        have h2 : (if s < min_time then min_time else s) ≤ e := by
          split <;> omega
        refine ⟨((if s < min_time then min_time else s), e) :: out, ?_, ?_⟩
        · show (if (if s < min_time then min_time else s) ≤ e then
              (prep_work_ranges min_time ws).map
                (fun rest => ((if s < min_time then min_time else s), e) :: rest)
            else none) = some (((if s < min_time then min_time else s), e) :: out)
          rw [if_pos h2, hout]
          rfl
        · exact validRanges_cons h2 hvout

/-- Padding map performed by `get_busy_ranges`. -/
lemma get_busy_ranges_eq_map (config : Config) : ∀ raw : List TimeRange,
    get_busy_ranges config raw = raw.map (fun r =>
      (r.1 - config.meeting_spare_before * 60,
       r.2 + config.meeting_spare_after * 60)) := by
  intro raw
  induction raw with
  | nil => rfl
  | cons r raw ih => rw [get_busy_ranges, ih, List.map_cons]

/-! ### Claim theorems -/

/-- C1 (counterexample): with the free list merely sorted by start (as the
claim requires) but overlapping, and an empty busy list satisfying the
claim's busy precondition, `combine_ranges` returns the two overlapping free
intervals unchanged, so its output is not mutually non-overlapping. -/
theorem C1_counterexample :
    SortedByStart [(0, 7200), (3600, 10800)] ∧
    ValidRanges [(0, 7200), (3600, 10800)] ∧
    SortedDisjoint ([] : List TimeRange) ∧
    ValidRanges ([] : List TimeRange) ∧
    ¬(combine_ranges ⟨30, 0, 0⟩ [(0, 7200), (3600, 10800)] []).Pairwise
        (fun a b => a.2 ≤ b.1 ∨ b.2 ≤ a.1) := by
  have h : combine_ranges ⟨30, 0, 0⟩ [(0, 7200), (3600, 10800)] [] =
      [(0, 7200), (3600, 10800)] :=
    combine_eq_of_fuel ⟨30, 0, 0⟩ [(0, 7200), (3600, 10800)] [] 2
      [(0, 7200), (3600, 10800)] (by decide) (by decide)
  refine ⟨by decide, by decide, by decide, by decide, ?_⟩
  rw [h]
  decide

/-- C1 (amended): when the free list is additionally mutually non-overlapping
(and both lists non-degenerate, with a positive minimum length), the sweep's
output is sorted by start, mutually non-overlapping, non-degenerate, meets no
busy interval, and every interval is at least `meeting_length_minutes` long. -/
theorem C1_spec (config : Config) (free busy : List TimeRange)
    (hm : 1 ≤ config.meeting_length_minutes)
    (hcf : SortedDisjoint free) (hvf : ValidRanges free)
    (hcb : SortedDisjoint busy) (hvb : ValidRanges busy) :
    SortedByStart (combine_ranges config free busy) ∧
    SortedDisjoint (combine_ranges config free busy) ∧
    ValidRanges (combine_ranges config free busy) ∧
    DisjointFrom (combine_ranges config free busy) busy ∧
    ∀ r ∈ combine_ranges config free busy,
      config.meeting_length_minutes ≤ (r.2 - r.1).fdiv 60 := by
  obtain ⟨hchain, hdisj⟩ := combine_main config hm free busy hcf hvf hcb hvb
  have hvalid := combine_output_valid config hm free busy
  refine ⟨?_, hchain, hvalid, hdisj, combine_min_length config free busy⟩
  refine List.Pairwise.imp_of_mem ?_ hchain
  intro a b ha _ hab
  have h6 := hvalid a ha
  omega

/-- C1 witness. -/
theorem C1_witness :
    SortedByStart (combine_ranges ⟨30, 0, 0⟩ [(0, 7200)] [(600, 1200)]) ∧
    SortedDisjoint (combine_ranges ⟨30, 0, 0⟩ [(0, 7200)] [(600, 1200)]) ∧
    ValidRanges (combine_ranges ⟨30, 0, 0⟩ [(0, 7200)] [(600, 1200)]) ∧
    DisjointFrom (combine_ranges ⟨30, 0, 0⟩ [(0, 7200)] [(600, 1200)]) [(600, 1200)] ∧
    ∀ r ∈ combine_ranges ⟨30, 0, 0⟩ [(0, 7200)] [(600, 1200)],
      (⟨30, 0, 0⟩ : Config).meeting_length_minutes ≤ (r.2 - r.1).fdiv 60 :=
  C1_spec ⟨30, 0, 0⟩ [(0, 7200)] [(600, 1200)] (by decide) (by decide) (by decide)
    (by decide) (by decide)

/-- C2: every start adjustment in `combine_ranges` is
`ceil_dt busy_end free_start meeting_length_minutes` (lines 129-133 and
150-152), and `ceil_dt dt base m` is congruent to `base` modulo `m` minutes
and is the smallest such value that is at least `dt`. -/
theorem C2_spec (m dt base x : ℤ) (hm : 1 ≤ m) (hx : dt ≤ x)
    (hmod : x % (m * 60) = base % (m * 60)) :
    ceil_dt dt base m % (m * 60) = base % (m * 60) ∧
    dt ≤ ceil_dt dt base m ∧
    ceil_dt dt base m ≤ x :=
  ⟨ceil_dt_emod dt base m, ceil_dt_ge hm dt base, ceil_dt_min hm dt base x hx hmod⟩

/-- C2 witness: the busy end 09:05 rounded on a 30-minute grid from 09:00. -/
theorem C2_witness :
    ceil_dt 32700 32400 30 % (30 * 60) = 32400 % (30 * 60) ∧
    (32700 : ℤ) ≤ ceil_dt 32700 32400 30 ∧
    ceil_dt 32700 32400 30 ≤ 34200 :=
  C2_spec 30 32700 32400 34200 (by decide) (by decide) (by decide)

/-- C3 (counterexample): with the free list merely sorted by start (as the
claim requires) but overlapping, chaining differs from the merged single
pass: the first pass drops the short first interval and rewrites the second
interval's start past its usable region, while the merged pass keeps it. -/
theorem C3_counterexample :
    SortedByStart [(0, 1200), (0, 2100)] ∧
    ValidRanges [(0, 1200), (0, 2100)] ∧
    SortedDisjoint ([] : List TimeRange) ∧ ValidRanges ([] : List TimeRange) ∧
    SortedDisjoint [(0, 600)] ∧ ValidRanges [(0, 600)] ∧
    SortedDisjoint (mergeBusy [] [(0, 600)]) ∧
    combine_ranges ⟨30, 0, 0⟩
        (combine_ranges ⟨30, 0, 0⟩ [(0, 1200), (0, 2100)] []) [(0, 600)] ≠
      combine_ranges ⟨30, 0, 0⟩ [(0, 1200), (0, 2100)] (mergeBusy [] [(0, 600)]) := by
  have h1 : combine_ranges ⟨30, 0, 0⟩ [(0, 1200), (0, 2100)] [] = [(0, 2100)] :=
    combine_eq_of_fuel ⟨30, 0, 0⟩ [(0, 1200), (0, 2100)] [] 2 [(0, 2100)]
      (by decide) (by decide)
  have h2 : combine_ranges ⟨30, 0, 0⟩ [(0, 2100)] [(0, 600)] = [] :=
    combine_eq_of_fuel ⟨30, 0, 0⟩ [(0, 2100)] [(0, 600)] 2 [] (by decide) (by decide)
  have h3 : combine_ranges ⟨30, 0, 0⟩ [(0, 1200), (0, 2100)] [(0, 600)] = [(0, 2100)] :=
    combine_eq_of_fuel ⟨30, 0, 0⟩ [(0, 1200), (0, 2100)] [(0, 600)] 3 [(0, 2100)]
      (by decide) (by decide)
  refine ⟨by decide, by decide, by decide, by decide, by decide, by decide, ?_, ?_⟩
  · rw [mergeBusy_nil_left]
    decide
  · rw [mergeBusy_nil_left, h1, h2, h3]
    decide

/-- C3 (amended): when the free list is additionally mutually non-overlapping
(and non-degenerate), reducing against `B1` and then `B2` equals reducing
against their sorted merge, given both busy lists and the merge are sorted
and non-overlapping and the minimum length is positive. -/
theorem C3_spec (config : Config) (F B1 B2 : List TimeRange)
    (hm : 1 ≤ config.meeting_length_minutes)
    (hcf : SortedDisjoint F) (hvf : ValidRanges F)
    (hc1 : SortedDisjoint B1) (hv1 : ValidRanges B1)
    (hc2 : SortedDisjoint B2) (hv2 : ValidRanges B2)
    (hcm : SortedDisjoint (mergeBusy B1 B2)) :
    combine_ranges config (combine_ranges config F B1) B2 =
      combine_ranges config F (mergeBusy B1 B2) :=
  combine_chaining config hm F B1 B2 hcf hvf hc1 hv1 hc2 hv2 hcm

/-- C3 witness. -/
theorem C3_witness :
    combine_ranges ⟨30, 0, 0⟩
        (combine_ranges ⟨30, 0, 0⟩ [(0, 7200)] [(600, 1200)]) [(3600, 4200)] =
      combine_ranges ⟨30, 0, 0⟩ [(0, 7200)] (mergeBusy [(600, 1200)] [(3600, 4200)]) :=
  C3_spec ⟨30, 0, 0⟩ [(0, 7200)] [(600, 1200)] [(3600, 4200)] (by decide) (by decide)
    (by decide) (by decide) (by decide) (by decide) (by decide)
    (by
      rw [mergeBusy_cons_left (by decide), mergeBusy_nil_left]
      decide)

/-- C4 (counterexample): the code has no separate rounding-grid parameter;
the grid is `meeting_length_minutes` itself.  With the claim's minimum
length of 30 minutes, the busy end 09:05 rounds up to 09:30, not to the
claimed 09:15. -/
theorem C4_counterexample :
    combine_ranges ⟨30, 0, 0⟩ [(32400, 61200)] [(32400, 32700)] =
      [(34200, 61200)] ∧
    combine_ranges ⟨30, 0, 0⟩ [(32400, 61200)] [(32400, 32700)] ≠
      [(33300, 61200)] := by
  have h : combine_ranges ⟨30, 0, 0⟩ [(32400, 61200)] [(32400, 32700)] =
      [(34200, 61200)] :=
    combine_eq_of_fuel ⟨30, 0, 0⟩ [(32400, 61200)] [(32400, 32700)] 2
      [(34200, 61200)] (by decide) (by decide)
  exact ⟨h, by rw [h]; decide⟩

/-- C4 (amended): with `meeting_length_minutes = 15` — the single parameter
that serves as both the minimum length and the rounding grid — the busy end
09:05 rounds up to 09:15 and the merge returns exactly `[09:15, 17:00)`. -/
theorem C4_spec :
    combine_ranges ⟨15, 0, 0⟩ [(32400, 61200)] [(32400, 32700)] =
      [(33300, 61200)] :=
  combine_eq_of_fuel ⟨15, 0, 0⟩ [(32400, 61200)] [(32400, 32700)] 2
    [(33300, 61200)] (by decide) (by decide)

/-- C5 (counterexample): `get_busy_ranges` appends the padded intervals in
the order the service reported them and performs no sort, so an unsorted
reply yields an unsorted result. -/
theorem C5_counterexample :
    ¬SortedByStart (get_busy_ranges ⟨30, 0, 0⟩ [(600, 1200), (0, 300)]) := by
  decide

/-- C5 (amended): `get_busy_ranges` maps each reported interval to the padded
interval `(start - meeting_spare_before min, end + meeting_spare_after min)`,
preserving the reported order (it does not sort). -/
theorem C5_spec (config : Config) (raw : List TimeRange) :
    get_busy_ranges config raw = raw.map (fun r =>
      (r.1 - config.meeting_spare_before * 60,
       r.2 + config.meeting_spare_after * 60)) :=
  get_busy_ranges_eq_map config raw

/-- C6: on the empty final free list `print_ranges` evaluates
`day_ranges[0][0][0]` (line 200 of `src/src/get_availability.py`) on the
empty `day_ranges` and raises `IndexError` — modelled as `none` — instead of
completing without failure as the claim requires. -/
theorem C6_empty_fails : ∀ off : ℤ, print_ranges off [] = none :=
  fun _ => rfl

/-- C7 (counterexample): a work window whose length after floor-clipping is
zero (non-positive) passes the non-strict assertion `start <= end` and is
emitted; `prep_work_ranges` does not fail. -/
theorem C7_counterexample :
    prep_work_ranges 10 [(0, 10)] = some [(10, 10)] ∧
    prep_work_ranges 10 [(0, 10)] ≠ none := by
  decide

/-- C7 (amended): on raw windows with `start ≤ end` the assertion
`start <= end` never fails — windows whose length after floor-clipping is
zero are emitted, and a negative length cannot arise. -/
theorem C7_spec (min_time : ℤ) (ws : List TimeRange)
    (h : ∀ w ∈ ws, w.1 ≤ w.2) :
    ∃ out, prep_work_ranges min_time ws = some out ∧ ValidRanges out :=
  prep_work_ranges_total min_time ws h

/-- C7 witness. -/
theorem C7_witness :
    ∃ out, prep_work_ranges 10 [(0, 10)] = some out ∧ ValidRanges out :=
  C7_spec 10 [(0, 10)] (by decide)

/-- C8 (counterexample): `print_ranges` groups by weekday of the converted
start, not by calendar day: two intervals exactly seven days apart share a
weekday and land in the same cluster although their calendar days differ. -/
theorem C8_counterexample :
    group_ranges 0 [(0, 3600), (604800, 608400)] =
      [[(0, 3600), (604800, 608400)]] ∧
    ((0 : ℤ) + 0).fdiv 86400 ≠ ((604800 : ℤ) + 0).fdiv 86400 := by
  constructor
  · rfl
  · decide

/-- C8 (amended): the grouping loop partitions the input, in order, into
non-empty maximal runs of consecutive intervals whose converted starts share
a weekday; adjacent clusters have different weekdays. -/
theorem C8_spec (off : ℤ) (ranges : List TimeRange) :
    (group_ranges off ranges).flatten = ranges ∧
    (∀ c ∈ group_ranges off ranges, c ≠ [] ∧
      ∀ x ∈ c, ∀ y ∈ c, weekday off x.1 = weekday off y.1) ∧
    List.Chain' (fun c c' => ∀ x ∈ c, ∀ y ∈ c', weekday off x.1 ≠ weekday off y.1)
      (group_ranges off ranges) := by
  cases ranges with
  | nil =>
      refine ⟨rfl, ?_, ?_⟩
      · intro c hc
        exact absurd hc (List.not_mem_nil c)
      · exact List.chain'_nil
  | cons r rs =>
      have hsingleton : ∀ x ∈ [r], weekday off x.1 = weekday off r.1 := by
        intro x hx
        rcases List.mem_cons.mp hx with hEq | hx'
        · subst hEq; rfl
        · exact absurd hx' (List.not_mem_nil x)
      rw [group_ranges]
      refine ⟨?_, groupGo_clusters off rs _ [r] (by simp) hsingleton,
        groupGo_chain off rs _ [r] (by simp) hsingleton⟩
      rw [groupGo_flatten]
      rfl

/-- C9: re-merging a merge result against an empty busy list is a no-op,
since every emitted interval already satisfies the minimum-length check. -/
theorem C9_spec (config : Config) (F B : List TimeRange)
    (_hm : 1 ≤ config.meeting_length_minutes)
    (_hcf : SortedDisjoint F) (_hvf : ValidRanges F)
    (_hcb : SortedDisjoint B) (_hvb : ValidRanges B) :
    combine_ranges config (combine_ranges config F B) [] =
      combine_ranges config F B :=
  combine_idem_nil config F B

/-- C9 witness. -/
theorem C9_witness :
    combine_ranges ⟨30, 0, 0⟩
        (combine_ranges ⟨30, 0, 0⟩ [(0, 7200)] [(600, 1200)]) [] =
      combine_ranges ⟨30, 0, 0⟩ [(0, 7200)] [(600, 1200)] :=
  C9_spec ⟨30, 0, 0⟩ [(0, 7200)] [(600, 1200)] (by decide) (by decide) (by decide)
    (by decide) (by decide)

/-- C10: the sweep terminates on all inputs — every step strictly decreases
the number of unconsumed free plus busy intervals, so with fuel
`len(free) + len(busy)` the fuel-indexed sweep completes and computes
`combine_ranges`. -/
theorem C10_spec (config : Config) (free busy : List TimeRange) (fuel : ℕ)
    (h : free.length + busy.length ≤ fuel) :
    combineFuel config fuel free busy = some (combine_ranges config free busy) :=
  combineFuel_spec config free busy fuel h

/-- C10 witness. -/
theorem C10_witness :
    combineFuel ⟨30, 0, 0⟩ 2 [(0, 7200)] [(600, 1200)] =
      some (combine_ranges ⟨30, 0, 0⟩ [(0, 7200)] [(600, 1200)]) :=
  C10_spec ⟨30, 0, 0⟩ [(0, 7200)] [(600, 1200)] 2 (by decide)

end CalendarAvailability
